import Mathlib

/-!
Verification development for the Buraco rule engine
(backend/game/Deck.js, MeldValidator.js, Scoring.js, GameState.js).

The JavaScript source is shallowly embedded: every JS function named below
keeps its source name; card objects are modelled by their identity triple
(suit, rank, deckIndex), from which the JS code derives the id string and
the point value; JS arrays become lists, the hands Map becomes an
association list keyed by socketId, and each mutating method of GameState
becomes a function from the old state to a result paired with the new state.
-/

namespace Buraco

/-- Card ranks as the strings used by the source: the thirteen natural
ranks, the JOKER rank produced by createCard for jokers, and the WILD
string that appears only in the rank comparison inside Scoring.js
(createDeck never produces a card of rank WILD). -/
inductive Rank where
  | rA | r2 | r3 | r4 | r5 | r6 | r7 | r8 | r9 | r10 | rJ | rQ | rK
  | rJOKER
  | rWILD
  deriving DecidableEq, Repr

/-- Suits as the strings used by the source, including the joker suit
marker used by createDeck for joker cards. -/
inductive Suit where
  | hearts | diamonds | clubs | spades | joker
  deriving DecidableEq, Repr

/-- A card is modelled by its identity: suit, rank and deck index.  The JS
id string suit-rank-deckIndex is determined injectively by this triple, and
the stored value field is determined by the rank (CARD_VALUES), so neither
is carried separately. -/
structure Card where
  suit : Suit
  rank : Rank
  deckIndex : Nat
  deriving DecidableEq, Repr

/-- CARD_VALUES from Deck.js.  The table has no entry for the WILD string
(such a card is never created by createDeck); we give it 0 here. -/
def cardValue : Rank → Int
  | .rJOKER => 10
  | .rA => 10 | .rK => 10 | .rQ => 10 | .rJ => 10 | .r10 => 10
  | .r9 => 5 | .r8 => 5 | .r7 => 5 | .r6 => 5 | .r5 => 5
  | .r4 => 5 | .r3 => 5 | .r2 => 5
  | .rWILD => 0

/-- The four real suits, in the order SUITS lists them. -/
def SUITS : List Suit := [.hearts, .diamonds, .clubs, .spades]

/-- The thirteen natural ranks, in the order RANKS lists them. -/
def RANKS : List Rank :=
  [.rA, .r2, .r3, .r4, .r5, .r6, .r7, .r8, .r9, .r10, .rJ, .rQ, .rK]

/-- createCard from Deck.js, restricted to the identity triple. -/
def createCard (suit : Suit) (rank : Rank) (deckIndex : Nat) : Card :=
  { suit := suit, rank := rank, deckIndex := deckIndex }

/-- createDeck from Deck.js: two copies of the standard 52-card deck, each
followed by two jokers (108 cards in total).  The deck count and the joker
count are fixed in the source; the function takes no parameters. -/
def createDeck : List Card :=
  (List.range 2).flatMap fun deckIndex =>
    (SUITS.flatMap fun suit => RANKS.map fun rank => createCard suit rank deckIndex)
      ++ [createCard .joker .rJOKER (deckIndex * 2),
          createCard .joker .rJOKER (deckIndex * 2 + 1)]

/-- getRankIndex from Deck.js: indexOf into the A..K order, so JOKER and
WILD give -1. -/
def getRankIndex : Rank → Int
  | .rA => 0 | .r2 => 1 | .r3 => 2 | .r4 => 3 | .r5 => 4 | .r6 => 5
  | .r7 => 6 | .r8 => 7 | .r9 => 8 | .r10 => 9 | .rJ => 10 | .rQ => 11
  | .rK => 12
  | .rJOKER => -1
  | .rWILD => -1

/-- calculateCardsValue from Deck.js. -/
def calculateCardsValue (cards : List Card) : Int :=
  cards.foldl (fun sum card => sum + cardValue card.rank) 0

/-- Result of dealCards from Deck.js. -/
structure Deal where
  hands : List (List Card)
  pozzetti : List (List Card)
  drawPile : List Card
  discardPile : List Card
  deriving Repr

/-- The hand-dealing loop of dealCards: splice 11 cards off the front of
the deck for each player, returning the hands and the remaining deck. -/
def dealHands : Nat → List Card → List (List Card) × List Card
  | 0, deck => ([], deck)
  | n + 1, deck =>
      let rest := dealHands n (deck.drop 11)
      (deck.take 11 :: rest.1, rest.2)

/-- dealCards from Deck.js, with the shuffled deck passed in explicitly:
the source shuffles with Fisher-Yates, which can produce any permutation
of createDeck, and then splices hands, two pozzetti of 11, one discard
card, leaving the rest as the draw pile. -/
def dealCardsFrom (deck : List Card) (playerCount : Nat) : Deal :=
  let h := dealHands playerCount deck
  let afterHands := h.2
  let pozzetto1 := afterHands.take 11
  let afterP1 := afterHands.drop 11
  let pozzetto2 := afterP1.take 11
  let afterP2 := afterP1.drop 11
  { hands := h.1
    pozzetti := [pozzetto1, pozzetto2]
    discardPile := afterP2.take 1
    drawPile := afterP2.drop 1 }

/-! ## MeldValidator.js -/

/-- isWildCard from MeldValidator.js: only Jokers are wild. -/
def isWildCard (card : Card) : Bool :=
  card.rank = .rJOKER

/-- Result object shape shared by validateSet, validateSequence,
validateMeld and canExtendMeld.  Fields absent from a given JS result
object keep their defaults. -/
structure MeldResult where
  valid : Bool
  reason : String := ""
  type : Option String := none
  rank : Option Rank := none
  suit : Option Suit := none
  isClean : Bool := false
  isBurraco : Bool := false
  deriving DecidableEq, Repr

/-- Shorthand for the invalid result objects. -/
def MeldResult.fail (reason : String) : MeldResult :=
  { valid := false, reason := reason }

/-- validateSet from MeldValidator.js. -/
def validateSet (cards : List Card) : MeldResult :=
  if cards.length < 3 then .fail "Set must have at least 3 cards"
  else if cards.length > 7 then .fail "Meld cannot have more than 7 cards"
  else
    let wilds := cards.filter fun c => isWildCard c
    let naturals := cards.filter fun c => !isWildCard c
    if wilds.length > 1 then .fail "Set can have at most 1 wild card"
    else
      match naturals with
      | [] => .fail "Set cannot consist entirely of wild cards"
      | n0 :: _ =>
          if naturals.all fun c => c.rank = n0.rank then
            { valid := true, type := some "set", rank := some n0.rank,
              isClean := wilds.length = 0, isBurraco := cards.length ≥ 7 }
          else .fail "All cards in a set must be the same rank"

/-- Ascending insertion of an integer, placing it after equal keys; folding
this over a list from the left is a stable ascending sort, matching the JS
comparison sort on idx values. -/
def insertIntLE (x : Int) : List Int → List Int
  | [] => [x]
  | y :: t => if y ≤ x then y :: insertIntLE x t else x :: y :: t

/-- Stable ascending sort of integers. -/
def sortInts (l : List Int) : List Int :=
  l.foldl (fun acc x => insertIntLE x acc) []

/-- Replace the first occurrence of a value in a list (positions.find
followed by an idx assignment in the source). -/
def replaceFirstInt (old new : Int) : List Int → List Int
  | [] => []
  | y :: t => if y = old then new :: t else y :: replaceFirstInt old new t

/-- The gap-counting loop of validateSequence: sums positive differences
minus one between consecutive sorted positions, returning none on a
negative gap (duplicate ranks), which makes the source return invalid. -/
def countGaps : List Int → Option Int
  | [] => some 0
  | [_] => some 0
  | a :: b :: t =>
      let gap := b - a - 1
      if gap < 0 then none
      else match countGaps (b :: t) with
        | none => none
        | some rest => some (if gap > 0 then gap + rest else rest)

/-- validateSequence from MeldValidator.js.  Ace handling: hasLowAce holds
when a position-0 card coexists with a position-1 or position-2 card
(a natural 2 or 3); hasHighAce when a position-0 card coexists with a
King; the first position-0 entry is moved to 13 when hasHighAce holds and
hasLowAce does not. -/
def validateSequence (cards : List Card) : MeldResult :=
  if cards.length < 3 then .fail "Sequence must have at least 3 cards"
  else if cards.length > 7 then .fail "Meld cannot have more than 7 cards"
  else
    let wilds := cards.filter fun c => c.rank = .rJOKER
    let naturals := cards.filter fun c => c.rank ≠ .rJOKER
    match naturals with
    | [] => .fail "Sequence must contain natural cards"
    | n0 :: _ =>
        if naturals.all fun c => c.suit = n0.suit then
          let positions := sortInts (naturals.map fun c => getRankIndex c.rank)
          let hasLowAce := positions.contains 0 ∧
            (positions.contains 1 ∨ positions.contains 2)
          let hasHighAce := positions.contains 0 ∧ positions.contains 12
          let adjusted :=
            if hasHighAce ∧ ¬hasLowAce then sortInts (replaceFirstInt 0 13 positions)
            else positions
          match countGaps adjusted with
          | none => .fail "Duplicate ranks in sequence"
          | some gaps =>
              if wilds.length > 1 then
                .fail "Sequence can have at most 1 wild card (Joker)"
              else if gaps > (wilds.length : Int) then
                .fail "Not enough wild cards to fill gaps in sequence"
              else
                { valid := true, type := some "sequence", suit := some n0.suit,
                  isClean := wilds.length = 0, isBurraco := cards.length ≥ 7 }
        else .fail "All cards in a sequence must be the same suit"

/-- validateMeld from MeldValidator.js: try as a set, then as a sequence. -/
def validateMeld (cards : List Card) : MeldResult :=
  if cards.length < 3 then .fail "Meld must have at least 3 cards"
  else
    let setResult := validateSet cards
    if setResult.valid then setResult
    else
      let seqResult := validateSequence cards
      if seqResult.valid then seqResult
      else .fail "Cards do not form a valid set or sequence"

/-- Stable ascending insertion of a card keyed by getRankIndex. -/
def insertCardLE (c : Card) : List Card → List Card
  | [] => [c]
  | x :: t =>
      if getRankIndex x.rank ≤ getRankIndex c.rank then x :: insertCardLE c t
      else c :: x :: t

/-- Stable ascending sort of cards by getRankIndex, matching the stable JS
sort with comparator idxA - idxB. -/
def sortCardsByRank (l : List Card) : List Card :=
  l.foldl (fun acc c => insertCardLE c acc) []

/-- The wild-insertion loop of sortSequenceMeld: walk the sorted naturals,
after each card inserting as many queued wilds as the gap to the next card
allows (treating an Ace that follows a King as position 13), and append
any remaining wilds at the end. -/
def fillWilds : List Card → List Card → List Card
  | [], wilds => wilds
  | [c], wilds => c :: wilds
  | c :: c2 :: t, wilds =>
      let currentRank := getRankIndex c.rank
      let nextRank := if c2.rank = .rA ∧ c.rank = .rK then 13 else getRankIndex c2.rank
      let gap := nextRank - currentRank - 1
      let k := min gap.toNat wilds.length
      c :: (wilds.take k ++ fillWilds (c2 :: t) (wilds.drop k))

/-- The Ace-relocation step of sortSequenceMeld: when the sorted naturals
start with an Ace and end with a King, the Ace is moved to the end. -/
def moveAceToEnd : List Card → List Card
  | [] => []
  | first :: rest =>
      if 2 ≤ (first :: rest).length ∧ first.rank = .rA ∧
          ((first :: rest).getLast?.map (fun c => c.rank) = some .rK) then
        rest ++ [first]
      else first :: rest

/-- sortSequenceMeld from MeldValidator.js: separate Jokers from naturals,
sort the naturals by rank, move a leading Ace behind a trailing King, then
insert the wilds into the gaps.  The suit parameter is unused, as in the
source. -/
def sortSequenceMeld (cards : List Card) (_suit : Option Suit) : List Card :=
  let wilds := cards.filter fun c => c.rank = .rJOKER
  let naturals := moveAceToEnd (sortCardsByRank (cards.filter fun c => c.rank ≠ .rJOKER))
  fillWilds naturals wilds

/-- The information about an existing meld that canExtendMeld consults. -/
structure MeldInfo where
  type : Option String
  suit : Option Suit
  deriving Repr

/-- canExtendMeld from MeldValidator.js (the module GameState.js imports):
re-validate the concatenation of old and new cards against the established
meld type. -/
def canExtendMeld (existingMeld newCards : List Card) (meldInfo : MeldInfo) : MeldResult :=
  let combined := existingMeld ++ newCards
  if meldInfo.type = some "set" then validateSet combined
  else validateSequence combined

/-- canReplaceWild from MeldValidator.js: sequences only; drop the wild by
id, append the natural and the wild again, and re-validate as a sequence. -/
def canReplaceWild (meld : List Card) (wildCard naturalCard : Card)
    (meldInfo : MeldInfo) : MeldResult :=
  if meldInfo.type ≠ some "sequence" then
    .fail "Wild replacement only applies to sequences"
  else
    let newMeld := (meld.filter fun c => c ≠ wildCard) ++ [naturalCard, wildCard]
    validateSequence newMeld

/-- Stable ascending insertion of an (idx, rank) pair keyed by idx. -/
def insertPairLE (x : Int × Rank) : List (Int × Rank) → List (Int × Rank)
  | [] => [x]
  | y :: t => if y.1 ≤ x.1 then y :: insertPairLE x t else x :: y :: t

/-- Stable ascending sort of (idx, rank) pairs by idx. -/
def sortPairs (l : List (Int × Rank)) : List (Int × Rank) :=
  l.foldl (fun acc x => insertPairLE x acc) []

/-- Replace the idx of the first Ace entry by 13 (positions.find by rank
followed by an idx assignment in the source). -/
def raiseFirstAce : List (Int × Rank) → List (Int × Rank)
  | [] => []
  | (i, r) :: t => if r = .rA then (13, r) :: t else (i, r) :: raiseFirstAce t

/-- The gap loop of canFormSequenceWithWild: total positive gaps, none on a
negative gap (duplicate ranks). -/
def countGapsPairs : List (Int × Rank) → Option Int
  | [] => some 0
  | [_] => some 0
  | a :: b :: t =>
      let gap := b.1 - a.1 - 1
      if gap < 0 then none
      else match countGapsPairs (b :: t) with
        | none => none
        | some rest => some (if gap > 0 then gap + rest else rest)

/-- canFormSequenceWithWild from the repository variant of MeldValidator
(src/unnamed/part_009): decides whether the naturals plus the wilds can
form a sequence after repositioning the wild, treating the Ace as high
when an Ace appears with no natural 2 or 3 and either a natural King or a
Queen or Jack alongside an available wild. -/
def canFormSequenceWithWild (naturals wilds : List Card) (suit : Suit) : Bool :=
  if naturals.length = 0 then false
  else if wilds.length > 1 then false
  else if !(naturals.all fun c => c.suit = suit) then false
  else
    let positions := sortPairs (naturals.map fun c => (getRankIndex c.rank, c.rank))
    let hasAce := positions.any fun p => p.2 = .rA
    let hasKing := positions.any fun p => p.2 = .rK
    let hasQueen := positions.any fun p => p.2 = .rQ
    let hasJack := positions.any fun p => p.2 = .rJ
    let hasTwo := positions.any fun p => p.2 = .r2
    let hasThree := positions.any fun p => p.2 = .r3
    let aceIsHigh := hasAce ∧ ¬hasTwo ∧ ¬hasThree ∧
      (hasKing ∨ ((hasQueen ∨ hasJack) ∧ wilds.length > 0))
    let positions := if aceIsHigh then sortPairs (raiseFirstAce positions) else positions
    match countGapsPairs positions with
    | none => false
    | some totalGaps => totalGaps ≤ (wilds.length : Int)

/-! ## Scoring.js -/

/-- BONUSES from Scoring.js. -/
def CLEAN_BURRACO : Int := 200
def DIRTY_BURRACO : Int := 200
def SAME_RANK_BURRACO : Int := 100
def GOING_OUT : Int := 50
def POZZETTO_BONUS : Int := 50

/-- A played meld as stored on a team by GameState.js.  The id is a fresh
number standing in for the unpredictable meld-timestamp-random id string;
only identity lookups use it. -/
structure Meld where
  id : Nat
  cards : List Card
  type : Option String
  rank : Option Rank := none
  suit : Option Suit := none
  isClean : Bool
  isBurraco : Bool
  deriving DecidableEq, Repr

/-- isSameRankMeld from Scoring.js.  Note that the filter keeps every card
whose rank differs from the WILD string; cards created by createDeck have
rank JOKER for jokers, so they survive this filter. -/
def isSameRankMeld (cards : List Card) : Bool :=
  if cards.length = 0 then false
  else
    let nonWildCards := cards.filter fun card => card.rank ≠ .rWILD
    match nonWildCards with
    | [] => false
    | first :: _ => nonWildCards.all fun card => card.rank = first.rank

/-- Result record of calculateMeldScore. -/
structure MeldScore where
  score : Int
  cleanBurracos : Nat
  dirtyBurracos : Nat
  sameRankBurracos : Nat
  deriving DecidableEq, Repr

/-- calculateMeldScore from Scoring.js: card values plus one mutually
exclusive burraco bonus per burraco meld (same-rank, else clean, else
dirty). -/
def calculateMeldScore (melds : List Meld) : MeldScore :=
  melds.foldl
    (fun acc meld =>
      let acc := { acc with score := acc.score + calculateCardsValue meld.cards }
      if meld.isBurraco then
        if isSameRankMeld meld.cards then
          { acc with score := acc.score + SAME_RANK_BURRACO,
                     sameRankBurracos := acc.sameRankBurracos + 1 }
        else if meld.isClean then
          { acc with score := acc.score + CLEAN_BURRACO,
                     cleanBurracos := acc.cleanBurracos + 1 }
        else
          { acc with score := acc.score + DIRTY_BURRACO,
                     dirtyBurracos := acc.dirtyBurracos + 1 }
      else acc)
    { score := 0, cleanBurracos := 0, dirtyBurracos := 0, sameRankBurracos := 0 }

/-- calculateHandPenalty from Scoring.js. -/
def calculateHandPenalty (hands : List (List Card)) : Int :=
  -(hands.foldl (fun penalty hand => penalty + calculateCardsValue hand) 0)

/-- Input record of calculateTeamScore. -/
structure TeamScoreInput where
  melds : List Meld
  hands : List (List Card)
  pozzettoCount : Nat
  wentOut : Bool

/-- Result record of calculateTeamScore (the fields the engine reads). -/
structure TeamScoreResult where
  totalScore : Int
  meldScore : Int
  handPenalty : Int
  deriving DecidableEq, Repr

/-- calculateTeamScore from Scoring.js. -/
def calculateTeamScore (team : TeamScoreInput) : TeamScoreResult :=
  let meldResult := calculateMeldScore team.melds
  let handPenalty := calculateHandPenalty team.hands
  let base := meldResult.score + handPenalty
  let withOut := if team.wentOut then base + GOING_OUT else base
  let total := withOut + (team.pozzettoCount : Int) * POZZETTO_BONUS
  { totalScore := total, meldScore := meldResult.score, handPenalty := handPenalty }

/-! ## GameState.js -/

/-- The two team keys. -/
inductive TeamId where
  | A | B
  deriving DecidableEq, Repr

/-- The winner field: a team key or the tie marker. -/
inductive Winner where
  | team (t : TeamId) | tie
  deriving DecidableEq, Repr

/-- A roster entry (the fields the engine reads; socket ids are numbered). -/
structure Player where
  socketId : Nat
  team : TeamId
  deriving DecidableEq, Repr

/-- Per-team state from the GameState constructor.  pozzettoIndex and
pozzettoCount start undefined in JS; they are modelled as none and 0,
matching every use site (strict comparison with an index, and the
pozzettoCount or-zero read). -/
structure Team where
  melds : List Meld
  tookPozzetto : Bool
  wentOut : Bool
  playerIds : List Nat
  pozzettoIndex : Option Nat := none
  pozzettoCount : Nat := 0
  deriving Repr

/-- PHASES from GameState.js. -/
inductive Phase where
  | draw | meld | discard
  deriving DecidableEq, Repr

/-- The Round state: the fields of the GameState constructor that the
action methods read or write.  meldSeq is a fresh-number source standing
in for the unpredictable meld-timestamp-random id strings; only identity
lookups consult meld ids. -/
structure GameState where
  playerCount : Nat
  players : List Player
  hands : List (Nat × List Card)
  drawPile : List Card
  discardPile : List Card
  pozzetti : List (List Card)
  teamA : Team
  teamB : Team
  currentPlayerIndex : Nat
  currentPhase : Phase
  turnCount : Nat
  isGameOver : Bool
  winner : Option Winner := none
  scores : Int × Int := (0, 0)
  meldSeq : Nat := 0
  deriving Repr

/-- Room configuration with the constructor defaults
(config.turnTimer ?? 60, config.deckCount ?? 3, config.jokersPerDeck ?? 2). -/
structure Config where
  turnTimer : Nat
  deckCount : Nat
  jokersPerDeck : Nat
  deriving DecidableEq, Repr

/-- The config-defaulting part of the GameState constructor. -/
def resolveConfig (turnTimer deckCount jokersPerDeck : Option Nat) : Config :=
  { turnTimer := turnTimer.getD 60
    deckCount := deckCount.getD 3
    jokersPerDeck := jokersPerDeck.getD 2 }

/-- The GameState constructor: install hands keyed by socket id, build the
two teams with their member lists, start at player 0 in the DRAW phase. -/
def mkGameState (playerCount : Nat) (players : List Player)
    (hands : List (List Card)) (pozzetti : List (List Card))
    (drawPile discardPile : List Card) : GameState :=
  { playerCount := playerCount
    players := players
    hands := (players.zip hands).map fun ph => (ph.1.socketId, ph.2)
    drawPile := drawPile
    discardPile := discardPile
    pozzetti := pozzetti
    teamA := { melds := [], tookPozzetto := false, wentOut := false,
               playerIds := (players.filter fun p => p.team = .A).map fun p => p.socketId }
    teamB := { melds := [], tookPozzetto := false, wentOut := false,
               playerIds := (players.filter fun p => p.team = .B).map fun p => p.socketId }
    currentPlayerIndex := 0
    currentPhase := .draw
    turnCount := 0
    isGameOver := false }

/-- Read a team by key. -/
def GameState.team (s : GameState) : TeamId → Team
  | .A => s.teamA
  | .B => s.teamB

/-- Write a team by key. -/
def setTeam (s : GameState) : TeamId → Team → GameState
  | .A, t => { s with teamA := t }
  | .B, t => { s with teamB := t }

/-- Lookup in the hands association list (Map.get, empty for an absent
key). -/
def handsGet (hands : List (Nat × List Card)) (pid : Nat) : List Card :=
  ((hands.find? fun e => e.1 = pid).map fun e => e.2).getD []

/-- Update of the hands association list (Map.set): replace the entry of
an existing key, append a new entry otherwise. -/
def handsSet (hands : List (Nat × List Card)) (pid : Nat) (cards : List Card) :
    List (Nat × List Card) :=
  if hands.any fun e => e.1 = pid then
    hands.map fun e => if e.1 = pid then (pid, cards) else e
  else hands ++ [(pid, cards)]

/-- this.hands.get(socketId). -/
def getHand (s : GameState) (pid : Nat) : List Card :=
  handsGet s.hands pid

/-- this.hands.set(socketId, cards). -/
def setHand (s : GameState) (pid : Nat) (cards : List Card) : GameState :=
  { s with hands := handsSet s.hands pid cards }

/-- Success payload fields the engine attaches to action results. -/
structure OkPayload where
  canGoOut : Bool := false
  tookPozzetto : Bool := false
  pozzettoIndex : Option Nat := none
  gameOver : Bool := false
  winner : Option TeamId := none
  deriving DecidableEq, Repr

/-- An action result: success with its payload, or failure with the reason
string. -/
inductive ActRes where
  | fail (reason : String)
  | ok (payload : OkPayload)
  deriving DecidableEq, Repr

/-- Whether an action result is a success. -/
def ActRes.isOk : ActRes → Bool
  | .ok _ => true
  | .fail _ => false

/-- drawFromPile from GameState.js: current player and DRAW phase checks,
then pop the top (last) card of the draw pile onto the left of the hand
and move to the MELD phase. -/
def drawFromPile (s : GameState) (pid : Nat) : ActRes × GameState :=
  match s.players.get? s.currentPlayerIndex with
  | none => (.fail "Not your turn", s)
  | some cur =>
      if pid ≠ cur.socketId then (.fail "Not your turn", s)
      else if s.currentPhase ≠ .draw then (.fail "Cannot draw now", s)
      else
        match s.drawPile.getLast? with
        | none => (.fail "Draw pile is empty", s)
        | some card =>
            let s := setHand s pid (card :: getHand s pid)
            (.ok {}, { s with drawPile := s.drawPile.dropLast,
                              currentPhase := .meld })

/-- takeDiscardPile from GameState.js: move the whole discard pile onto
the left of the hand and move to the MELD phase. -/
def takeDiscardPile (s : GameState) (pid : Nat) : ActRes × GameState :=
  match s.players.get? s.currentPlayerIndex with
  | none => (.fail "Not your turn", s)
  | some cur =>
      if pid ≠ cur.socketId then (.fail "Not your turn", s)
      else if s.currentPhase ≠ .draw then (.fail "Cannot take discard pile now", s)
      else if s.discardPile.length = 0 then (.fail "Discard pile is empty", s)
      else
        let s2 := setHand s pid (s.discardPile ++ getHand s pid)
        (.ok {}, { s2 with discardPile := [], currentPhase := .meld })

/-- The card-resolution loop of playMeld and extendMeld: look every
requested id up in the hand, failing if any is absent.  A card equals its
id triple, so the resolved cards are the requested ones. -/
def resolveCards (hand : List Card) : List Card → Option (List Card)
  | [] => some []
  | cid :: rest =>
      if hand.contains cid then (resolveCards hand rest).map fun cs => cid :: cs
      else none

/-- One step of the removal loop: findIndex by id then splice(idx, 1).
When the id is no longer present findIndex gives -1 and splice(-1, 1)
removes the last element of the hand, as in the source. -/
def spliceRemove (hand : List Card) (cid : Card) : List Card :=
  match hand.findIdx? fun c => c = cid with
  | some i => hand.eraseIdx i
  | none => hand.dropLast

/-- The removal loop of playMeld and extendMeld. -/
def removeCards (hand : List Card) (cards : List Card) : List Card :=
  cards.foldl spliceRemove hand

/-- The pozzetto search loop of handleEmptyHand: first index not recorded
as taken by either team whose pile is non-empty. -/
def findAvailablePozzetto (s : GameState) : Nat → List (List Card) → Option (Nat × List Card)
  | _, [] => none
  | i, p :: rest =>
      let isTaken := (s.team .A).pozzettoIndex = some i ∨ (s.team .B).pozzettoIndex = some i
      if ¬isTaken ∧ p.length > 0 then some (i, p)
      else findAvailablePozzetto s (i + 1) rest

/-- The pozzetto pickup steps shared by handleEmptyHand and discard: the
pile becomes the hand, the team records the claim (tookPozzetto,
pozzettoIndex, incremented pozzettoCount), and slot i is emptied.  The
team record is read from the state passed in; the callers only modify
hands and piles beforehand, which leave the teams untouched. -/
def refillState (s : GameState) (pid : Nat) (tid : TeamId) (i : Nat)
    (pile : List Card) : GameState :=
  let team := s.team tid
  let s1 := setHand s pid pile
  let s2 := setTeam s1 tid
    { team with tookPozzetto := true, pozzettoIndex := some i,
                pozzettoCount := team.pozzettoCount + 1 }
  { s2 with pozzetti := s2.pozzetti.set i [] }

/-- handleEmptyHand from GameState.js: invoked by playMeld and extendMeld
when the hand empties.  A team that already took a pozzetto gets only the
canGoOut flag; otherwise the first available pozzetto replaces the hand
and is marked taken; with none available nothing happens.  The round is
never ended here. -/
def handleEmptyHand (s : GameState) (pid : Nat) : ActRes × GameState :=
  match s.players.find? fun p => p.socketId = pid with
  | none => (.ok {}, s)
  | some player =>
      let team := s.team player.team
      if team.tookPozzetto then (.ok { canGoOut := true }, s)
      else
        match findAvailablePozzetto s 0 s.pozzetti with
        | some (i, pozzetto) =>
            (.ok { tookPozzetto := true, pozzettoIndex := some i },
              refillState s pid player.team i pozzetto)
        | none => (.ok {}, s)

/-- playMeld from GameState.js. -/
def playMeld (s : GameState) (pid : Nat) (cardIds : List Card) : ActRes × GameState :=
  match s.players.get? s.currentPlayerIndex with
  | none => (.fail "Not your turn", s)
  | some cur =>
      if pid ≠ cur.socketId then (.fail "Not your turn", s)
      else if s.currentPhase ≠ .meld then (.fail "Cannot meld now", s)
      else
        let hand := getHand s pid
        let team := s.team cur.team
        match resolveCards hand cardIds with
        | none => (.fail "Card not in hand", s)
        | some cards =>
            let validation := validateMeld cards
            if !validation.valid then (.fail validation.reason, s)
            else
              let newHand := removeCards hand cards
              let sortedCards :=
                if validation.type = some "sequence" then
                  sortSequenceMeld cards validation.suit
                else cards
              let s2 := setHand s pid newHand
              let s2 := setTeam s2 cur.team
                { team with melds := team.melds ++
                    [{ id := s.meldSeq, cards := sortedCards,
                       type := validation.type, rank := validation.rank,
                       suit := validation.suit, isClean := validation.isClean,
                       isBurraco := validation.isBurraco }] }
              let s2 := { s2 with meldSeq := s.meldSeq + 1 }
              if newHand.length = 0 then handleEmptyHand s2 pid
              else (.ok {}, s2)

/-- extendMeld from GameState.js. -/
def extendMeld (s : GameState) (pid : Nat) (meldId : Nat) (cardIds : List Card) :
    ActRes × GameState :=
  match s.players.get? s.currentPlayerIndex with
  | none => (.fail "Not your turn", s)
  | some cur =>
      if pid ≠ cur.socketId then (.fail "Not your turn", s)
      else if s.currentPhase ≠ .meld then (.fail "Cannot meld now", s)
      else
        let hand := getHand s pid
        let team := s.team cur.team
        match team.melds.find? fun m => m.id = meldId with
        | none => (.fail "Meld not found", s)
        | some meld =>
            match resolveCards hand cardIds with
            | none => (.fail "Card not in hand", s)
            | some cards =>
                let validation := canExtendMeld meld.cards cards
                  { type := meld.type, suit := meld.suit }
                if !validation.valid then (.fail validation.reason, s)
                else
                  let newHand := removeCards hand cards
                  let grown := meld.cards ++ cards
                  let newCards :=
                    if meld.type = some "sequence" then sortSequenceMeld grown meld.suit
                    else grown
                  let updated := { meld with cards := newCards,
                                             isClean := validation.isClean,
                                             isBurraco := validation.isBurraco }
                  let s2 := setHand s pid newHand
                  let s2 := setTeam s2 cur.team
                    { team with melds := team.melds.map fun m =>
                        if m.id = meldId then updated else m }
                  if newHand.length = 0 then handleEmptyHand s2 pid
                  else (.ok {}, s2)

/-- replaceWildInMeld from GameState.js. -/
def replaceWildInMeld (s : GameState) (pid : Nat) (meldId : Nat)
    (wildCardId naturalCardId : Card) : ActRes × GameState :=
  match s.players.get? s.currentPlayerIndex with
  | none => (.fail "Not your turn", s)
  | some cur =>
      if pid ≠ cur.socketId then (.fail "Not your turn", s)
      else if s.currentPhase ≠ .meld then (.fail "Cannot modify melds now", s)
      else
        let hand := getHand s pid
        let team := s.team cur.team
        match team.melds.find? fun m => m.id = meldId with
        | none => (.fail "Meld not found", s)
        | some meld =>
            if meld.type ≠ some "sequence" then
              (.fail "Can only replace wilds in sequences", s)
            else
              match meld.cards.find? fun c => c = wildCardId with
              | none => (.fail "Wild card not found in meld", s)
              | some wildCard =>
                  if wildCard.rank ≠ .rJOKER then
                    (.fail "Selected card is not a wild card (only Jokers are wild)", s)
                  else
                    match hand.find? fun c => c = naturalCardId with
                    | none => (.fail "Natural card not in hand", s)
                    | some naturalCard =>
                        if some naturalCard.suit ≠ meld.suit then
                          (.fail "Card must match the meld suit", s)
                        else
                          let newMeldCards :=
                            (meld.cards.filter fun c => c ≠ wildCardId) ++ [naturalCard]
                          let validation := validateMeld newMeldCards
                          if !validation.valid then
                            (.fail "Replacement would create invalid meld", s)
                          else
                            let newHand :=
                              (match hand.findIdx? fun c => c = naturalCardId with
                               | some i => hand.eraseIdx i
                               | none => hand) ++ [wildCard]
                            let updated := { meld with
                              cards := sortSequenceMeld newMeldCards meld.suit,
                              isClean := validation.isClean,
                              isBurraco := validation.isBurraco }
                            let s2 := setHand s pid newHand
                            let s2 := setTeam s2 cur.team
                              { team with melds := team.melds.map fun m =>
                                  if m.id = meldId then updated else m }
                            (.ok {}, s2)

/-- nextTurn from GameState.js. -/
def nextTurn (s : GameState) : GameState :=
  { s with currentPlayerIndex := (s.currentPlayerIndex + 1) % s.playerCount,
           currentPhase := .draw,
           turnCount := s.turnCount + 1 }

/-- endGame from GameState.js: mark the round over, score both teams, and
record the winner (or the tie marker). -/
def endGame (s : GameState) : GameState :=
  let scoreOf : Team → Int := fun team =>
    (calculateTeamScore
      { melds := team.melds
        hands := team.playerIds.map fun pid => getHand s pid
        pozzettoCount := team.pozzettoCount
        wentOut := team.wentOut }).totalScore
  let sA := scoreOf s.teamA
  let sB := scoreOf s.teamB
  { s with isGameOver := true, scores := (sA, sB),
           winner := some (if sA > sB then .team .A
                           else if sB > sA then .team .B
                           else .tie) }

/-- discard from GameState.js: allowed in the MELD or DISCARD phase; moves
the card to the discard pile.  When the hand empties: with no pozzetto
left the team goes out and the round ends (no turn advance); otherwise the
first non-empty pozzetto refills the hand regardless of any earlier claim
by the same team.  In every non-closing case nextTurn() runs. -/
def discard (s : GameState) (pid : Nat) (cid : Card) : ActRes × GameState :=
  match s.players.get? s.currentPlayerIndex with
  | none => (.fail "Not your turn", s)
  | some cur =>
      if pid ≠ cur.socketId then (.fail "Not your turn", s)
      else if s.currentPhase ≠ .meld ∧ s.currentPhase ≠ .discard then
        (.fail "Cannot discard now", s)
      else
        let hand := getHand s pid
        let team := s.team cur.team
        match hand.findIdx? fun c => c = cid with
        | none => (.fail "Card not in hand", s)
        | some cardIndex =>
            let s2 := setHand s pid (hand.eraseIdx cardIndex)
            let s2 := { s2 with discardPile := s2.discardPile ++ [cid] }
            if (hand.eraseIdx cardIndex).length = 0 then
              match s2.pozzetti.findIdx? fun p => p.length > 0 with
              | none =>
                  let s3 := setTeam s2 cur.team { team with wentOut := true }
                  let s3 := endGame s3
                  (.ok { gameOver := true, winner := some cur.team }, s3)
              | some i =>
                  let pozzetto := s2.pozzetti.getD i []
                  (.ok { tookPozzetto := true, pozzettoIndex := some i },
                    nextTurn (refillState s2 pid cur.team i pozzetto))
            else (.ok {}, nextTurn s2)

/-! ## Action traces -/

/-- One public action of the round state machine. -/
inductive Action where
  | draw (pid : Nat)
  | take (pid : Nat)
  | play (pid : Nat) (cardIds : List Card)
  | extend (pid : Nat) (meldId : Nat) (cardIds : List Card)
  | replaceWild (pid : Nat) (meldId : Nat) (wildId naturalId : Card)
  | disc (pid : Nat) (cid : Card)

/-- Dispatch one action to its GameState method. -/
def stepAction (s : GameState) : Action → ActRes × GameState
  | .draw pid => drawFromPile s pid
  | .take pid => takeDiscardPile s pid
  | .play pid cardIds => playMeld s pid cardIds
  | .extend pid meldId cardIds => extendMeld s pid meldId cardIds
  | .replaceWild pid meldId wildId naturalId =>
      replaceWildInMeld s pid meldId wildId naturalId
  | .disc pid cid => discard s pid cid

/-- Run a list of actions, reporting whether every one succeeded. -/
def runActions (s : GameState) : List Action → Bool × GameState
  | [] => (true, s)
  | a :: rest =>
      let step := stepAction s a
      let next := runActions step.2 rest
      (step.1.isOk && next.1, next.2)

/-- Hearts card of deck copy d. -/
def hC (r : Rank) (d : Nat) : Card := createCard .hearts r d

/-- Diamonds card of deck copy d. -/
def dC (r : Rank) (d : Nat) : Card := createCard .diamonds r d

/-- Clubs card of deck copy d. -/
def cC (r : Rank) (d : Nat) : Card := createCard .clubs r d

/-- Spades card of deck copy d. -/
def sC (r : Rank) (d : Nat) : Card := createCard .spades r d

/-- Joker card number i. -/
def jkC (i : Nat) : Card := createCard .joker .rJOKER i

/-! ## Concrete rounds used as evidence -/

/-- A two-player roster: player 0 on team A, player 1 on team B. -/
def tracePlayers : List Player := [⟨0, .A⟩, ⟨1, .B⟩]

/-- The deal obtained from the identity permutation of createDeck (one of
the permutations Fisher-Yates can produce). -/
def traceDeal : Deal := dealCardsFrom createDeck 2

/-- The round state the GameState constructor builds from that deal. -/
def traceInit : GameState :=
  mkGameState 2 tracePlayers traceDeal.hands traceDeal.pozzetti
    traceDeal.drawPile traceDeal.discardPile

/-- A run in which player 0 (team A) empties their hand by melding on the
first turn, picking up the first reserve pile, and then empties the
refilled hand again through a discard two turns later, picking up the
second reserve pile as well. -/
def traceActions : List Action := [
  .draw 0,
  .play 0 [hC .rA 0, hC .r2 0, hC .r3 0, hC .r4 0, hC .r5 0, hC .r6 0, hC .r7 0],
  .play 0 [hC .r8 0, hC .r9 0, hC .r10 0, hC .rJ 0, jkC 3],
  .disc 0 (dC .r10 0),
  .draw 1,
  .disc 1 (jkC 2),
  .draw 0,
  .play 0 [cC .rA 0, cC .r2 0, cC .r3 0, cC .r4 0, cC .r5 0, cC .r6 0, cC .r7 0],
  .play 0 [dC .rJ 0, dC .rQ 0, dC .rK 0],
  .disc 0 (sC .rK 1)]

/-- A late-round state in which both reserve piles have been claimed (one
by each team) and player 0 holds a meldable set of three 7s. -/
def bothPilesClaimedState : GameState :=
  { playerCount := 2
    players := tracePlayers
    hands := [(0, [hC .r7 0, dC .r7 0, cC .r7 0]), (1, [sC .r9 0, sC .r10 0])]
    drawPile := [sC .r4 1]
    discardPile := [sC .r5 1]
    pozzetti := [[], []]
    teamA := { melds := [], tookPozzetto := true, wentOut := false,
               playerIds := [0], pozzettoIndex := some 0, pozzettoCount := 1 }
    teamB := { melds := [], tookPozzetto := true, wentOut := false,
               playerIds := [1], pozzettoIndex := some 1, pozzettoCount := 1 }
    currentPlayerIndex := 0
    currentPhase := .meld
    turnCount := 6
    isGameOver := false }

/-- A fresh small round used to watch the phase over one complete turn. -/
def oneTurnState : GameState :=
  mkGameState 2 tracePlayers
    [[hC .r3 0, hC .r4 0], [sC .r9 0, sC .r10 0]]
    [[cC .rA 0], [cC .r2 0]] [dC .r8 0] [dC .r9 0]

/-- The same round with its draw pile exhausted. -/
def emptyDrawPileState : GameState := { oneTurnState with drawPile := [] }

/-- A round in phase MELD where player 0 holds one last card and the
second reserve pile is still unclaimed. -/
def refillByDiscardState : GameState :=
  { oneTurnState with
      currentPhase := .meld
      hands := [(0, [hC .r3 0]), (1, [sC .r9 0, sC .r10 0])]
      pozzetti := [[], [cC .r2 0, cC .r5 0]] }

/-- A round in phase MELD where player 0 holds exactly a meldable set and
the first reserve pile is unclaimed. -/
def refillByMeldState : GameState :=
  { oneTurnState with
      currentPhase := .meld
      hands := [(0, [hC .r7 0, dC .r7 0, cC .r7 0]), (1, [sC .r9 0, sC .r10 0])]
      pozzetti := [[cC .r2 0, cC .r5 0], [cC .r8 0]] }

/-- The state after player 0 draws in oneTurnState. -/
def oneTurnAfterDraw : GameState := (drawFromPile oneTurnState 0).2

/-- The state after player 0 then discards, completing the turn. -/
def oneTurnAfterDiscard : GameState := (discard oneTurnAfterDraw 0 (hC .r3 0)).2

/-- A seven-card set of 7s whose wild is a joker created by createDeck. -/
def sameRankJokerCards : List Card :=
  [hC .r7 0, dC .r7 0, cC .r7 0, sC .r7 0, hC .r7 1, dC .r7 1, jkC 0]

/-- The meld record the engine stores for that set (flags as validateSet
reports them). -/
def sameRankJokerMeld : Meld :=
  { id := 0, cards := sameRankJokerCards, type := some "set", rank := some .r7,
    isClean := false, isBurraco := true }

/-! ## Theorems -/

/-- The identity triples created by createDeck are pairwise distinct. -/
theorem createDeck_nodup : createDeck.Nodup := by decide

/-- The hand-dealing loop only splits the deck: the dealt hands followed
by the remaining deck recompose the input deck. -/
theorem dealHands_flatten (n : Nat) : ∀ deck : List Card,
    (dealHands n deck).1.flatten ++ (dealHands n deck).2 = deck := by
  induction n with
  | zero => intro deck; simp [dealHands]
  | succ n ih =>
      intro deck
      simp only [dealHands, List.flatten_cons, List.append_assoc, ih]
      exact List.take_append_drop 11 deck

/-- The hand-dealing loop deals one hand per player. -/
theorem dealHands_count (n : Nat) : ∀ deck : List Card,
    (dealHands n deck).1.length = n := by
  induction n with
  | zero => intro deck; simp [dealHands]
  | succ n ih => intro deck; simp [dealHands, ih]

/-- The deck remaining after the hand-dealing loop. -/
theorem dealHands_rest (n : Nat) : ∀ deck : List Card,
    (dealHands n deck).2 = deck.drop (11 * n) := by
  induction n with
  | zero => intro deck; simp [dealHands]
  | succ n ih =>
      intro deck
      simp only [dealHands, ih, List.drop_drop, Nat.mul_succ]
      rw [Nat.add_comm]

/-- Every dealt hand has 11 cards when the deck is long enough. -/
theorem dealHands_hand_length (n : Nat) : ∀ deck : List Card,
    11 * n ≤ deck.length → ∀ h ∈ (dealHands n deck).1, h.length = 11 := by
  induction n with
  | zero => intro deck _ h hh; simp [dealHands] at hh
  | succ n ih =>
      intro deck hlen h hh
      simp only [dealHands, List.mem_cons] at hh
      rcases hh with rfl | hh
      · simp only [List.length_take]
        omega
      · exact ih (deck.drop 11) (by simp only [List.length_drop]; omega) h hh

/-- C6: for every supported player count, dealing from any shuffle of the
constructed deck partitions it: the hands, the two reserve piles, the
single discard card and the draw pile concatenate back to the dealt deck
(hence hold exactly its cards), are pairwise disjoint, and their sizes
always sum to the full deck size. -/
theorem dealCards_partitions_deck (deck : List Card) (pc : Nat)
    (hperm : deck.Perm createDeck) (hpc : pc = 2 ∨ pc = 4 ∨ pc = 6) :
    ((dealCardsFrom deck pc).hands ++ (dealCardsFrom deck pc).pozzetti ++
        [(dealCardsFrom deck pc).discardPile, (dealCardsFrom deck pc).drawPile]).flatten
      = deck ∧
    (dealCardsFrom deck pc).hands.length = pc ∧
    (∀ h ∈ (dealCardsFrom deck pc).hands, h.length = 11) ∧
    (∀ p ∈ (dealCardsFrom deck pc).pozzetti, p.length = 11) ∧
    (dealCardsFrom deck pc).discardPile.length = 1 ∧
    11 * pc + 11 + 11 + 1 + (dealCardsFrom deck pc).drawPile.length =
      createDeck.length ∧
    ((dealCardsFrom deck pc).hands ++ (dealCardsFrom deck pc).pozzetti ++
        [(dealCardsFrom deck pc).discardPile, (dealCardsFrom deck pc).drawPile]).Pairwise
      List.Disjoint := by
  have h108 : deck.length = 108 := by
    rw [hperm.length_eq]; decide
  have hflat : ((dealCardsFrom deck pc).hands ++ (dealCardsFrom deck pc).pozzetti ++
      [(dealCardsFrom deck pc).discardPile, (dealCardsFrom deck pc).drawPile]).flatten
      = deck := by
    simp only [dealCardsFrom, List.flatten_append, List.flatten_cons, List.flatten_nil,
      List.append_nil, List.append_assoc]
    rw [List.take_append_drop 1, List.take_append_drop 11, List.take_append_drop 11]
    exact dealHands_flatten pc deck
  refine ⟨hflat, ?_, ?_, ?_, ?_, ?_, ?_⟩
  · simpa only [dealCardsFrom] using dealHands_count pc deck
  · intro h hh
    refine dealHands_hand_length pc deck ?_ h ?_
    · rcases hpc with rfl | rfl | rfl <;> omega
    · simpa only [dealCardsFrom] using hh
  · intro p hp
    simp only [dealCardsFrom, List.mem_cons, List.not_mem_nil, or_false] at hp
    have hrest : (dealHands pc deck).2.length = 108 - 11 * pc := by
      rw [dealHands_rest, List.length_drop, h108]
    rcases hp with rfl | rfl <;>
      simp only [List.length_take, List.length_drop, hrest] <;>
      rcases hpc with rfl | rfl | rfl <;> omega
  · have hrest : (dealHands pc deck).2.length = 108 - 11 * pc := by
      rw [dealHands_rest, List.length_drop, h108]
    simp only [dealCardsFrom, List.length_take, List.length_drop, hrest]
    rcases hpc with rfl | rfl | rfl <;> omega
  · have hrest : (dealHands pc deck).2.length = 108 - 11 * pc := by
      rw [dealHands_rest, List.length_drop, h108]
    have hc : createDeck.length = 108 := by decide
    simp only [dealCardsFrom, List.length_drop, List.length_take, hrest, hc]
    rcases hpc with rfl | rfl | rfl <;> omega
  · have hnd : ((dealCardsFrom deck pc).hands ++ (dealCardsFrom deck pc).pozzetti ++
        [(dealCardsFrom deck pc).discardPile, (dealCardsFrom deck pc).drawPile]).flatten.Nodup := by
      rw [hflat]
      exact hperm.nodup_iff.mpr createDeck_nodup
    exact (List.nodup_flatten.mp hnd).2

/-- C6 witness: the partition contract evaluated at the identity shuffle
of createDeck with four players. -/
theorem dealCards_partitions_deck_witness :
    ((dealCardsFrom createDeck 4).hands ++ (dealCardsFrom createDeck 4).pozzetti ++
        [(dealCardsFrom createDeck 4).discardPile, (dealCardsFrom createDeck 4).drawPile]).flatten
      = createDeck ∧
    (dealCardsFrom createDeck 4).hands.length = 4 ∧
    (∀ h ∈ (dealCardsFrom createDeck 4).hands, h.length = 11) ∧
    (∀ p ∈ (dealCardsFrom createDeck 4).pozzetti, p.length = 11) ∧
    (dealCardsFrom createDeck 4).discardPile.length = 1 ∧
    11 * 4 + 11 + 11 + 1 + (dealCardsFrom createDeck 4).drawPile.length =
      createDeck.length ∧
    ((dealCardsFrom createDeck 4).hands ++ (dealCardsFrom createDeck 4).pozzetti ++
        [(dealCardsFrom createDeck 4).discardPile, (dealCardsFrom createDeck 4).drawPile]).Pairwise
      List.Disjoint :=
  dealCards_partitions_deck createDeck 4 (List.Perm.refl createDeck)
    (Or.inr (Or.inl rfl))

/-- With no wilds queued, the gap-filling loop returns the naturals
unchanged. -/
theorem fillWilds_nil : ∀ l : List Card, fillWilds l [] = l
  | [] => rfl
  | [_] => rfl
  | c :: c2 :: t => by
      simp only [fillWilds, List.take_nil, List.drop_nil, List.nil_append,
        fillWilds_nil (c2 :: t)]

/-- C7: only the joker rank is treated as wild by the meld validators: a
valid set carries at most one joker, is clean exactly when it has none,
and every non-joker card — a natural 2 included — must match the set rank;
a valid sequence likewise carries at most one joker, is clean exactly when
it has none, and every non-joker card must match the sequence suit;
sortSequenceMeld extracts no card of a joker-free list as a wild; and
concretely a natural 2 neither completes a set of 7s nor fills the gap of
4-5 hearts, while a joker does both. -/
theorem only_joker_rank_is_wild :
    (∀ (cards : List Card) (r : MeldResult), validateSet cards = r →
      r.valid = true →
      (cards.filter fun c => c.rank = Rank.rJOKER).length ≤ 1 ∧
      (r.isClean = true ↔ (cards.filter fun c => c.rank = Rank.rJOKER).length = 0) ∧
      ∀ c ∈ cards, c.rank ≠ Rank.rJOKER → some c.rank = r.rank) ∧
    (∀ (cards : List Card) (r : MeldResult), validateSequence cards = r →
      r.valid = true →
      (cards.filter fun c => c.rank = Rank.rJOKER).length ≤ 1 ∧
      (r.isClean = true ↔ (cards.filter fun c => c.rank = Rank.rJOKER).length = 0) ∧
      ∀ c ∈ cards, c.rank ≠ Rank.rJOKER → some c.suit = r.suit) ∧
    (∀ (cards : List Card) (su : Option Suit),
      (∀ c ∈ cards, c.rank ≠ Rank.rJOKER) →
      sortSequenceMeld cards su = moveAceToEnd (sortCardsByRank cards)) ∧
    (validateSet [hC .r7 0, sC .r7 0, dC .r2 0]).valid = false ∧
    (validateSet [hC .r7 0, sC .r7 0, jkC 0]).valid = true ∧
    (validateSequence [hC .r4 0, hC .r5 0, hC .r2 0]).valid = false ∧
    (validateSequence [hC .r4 0, hC .r5 0, jkC 0]).valid = true ∧
    (validateSequence [hC .rA 0, hC .r2 0, hC .r3 0]).valid = true := by
  refine ⟨?_, ?_, ?_, by decide, by decide, by decide, by decide, by decide⟩
  · intro cards r he hv
    unfold validateSet at he
    dsimp only at he
    split at he
    · subst he; simp [MeldResult.fail] at hv
    · split at he
      · subst he; simp [MeldResult.fail] at hv
      · split at he
        · subst he; simp [MeldResult.fail] at hv
        · rename_i h3 h7 hw
          split at he
          · subst he; simp [MeldResult.fail] at hv
          · split at he
            · rename_i n0 rest hnat hall
              subst he
              simp only [isWildCard] at hw hnat hall ⊢
              refine ⟨by omega, by simp, ?_⟩
              intro c hc hcr
              have hcn : c ∈ cards.filter fun c => !decide (c.rank = Rank.rJOKER) := by
                simp [List.mem_filter, hc, hcr]
              have := List.all_eq_true.mp hall c hcn
              simp only [decide_eq_true_eq] at this
              simp [this]
            · subst he; simp [MeldResult.fail] at hv
  · intro cards r he hv
    unfold validateSequence at he
    dsimp only at he
    split at he
    · subst he; simp [MeldResult.fail] at hv
    · split at he
      · subst he; simp [MeldResult.fail] at hv
      · split at he
        · subst he; simp [MeldResult.fail] at hv
        · split at he
          · rename_i h3 h7 n0 rest hnat hall
            split at he
            · subst he; simp [MeldResult.fail] at hv
            · split at he
              · subst he; simp [MeldResult.fail] at hv
              · split at he
                · subst he; simp [MeldResult.fail] at hv
                · rename_i gaps hgaps hwle hgle
                  subst he
                  refine ⟨by omega, by simp, ?_⟩
                  intro c hc hcr
                  have hcn : c ∈ cards.filter fun c => decide (c.rank ≠ Rank.rJOKER) := by
                    simp [List.mem_filter, hc, hcr]
                  have := List.all_eq_true.mp hall c hcn
                  simp only [decide_eq_true_eq] at this
                  simp [this]
          · subst he; simp [MeldResult.fail] at hv
  · intro cards su hnj
    unfold sortSequenceMeld
    have h1 : (cards.filter fun c => c.rank = Rank.rJOKER) = [] := by
      rw [List.filter_eq_nil_iff]
      intro c hc
      simpa using hnj c hc
    have h2 : (cards.filter fun c => c.rank ≠ Rank.rJOKER) = cards := by
      rw [List.filter_eq_self]
      intro c hc
      simpa using hnj c hc
    rw [h1, h2, fillWilds_nil]

/-- C1 counterexample: player 0 empties their hand through a successful
playMeld while both reserve piles are already claimed; the round does not
end and no winner is recorded, contradicting the claim that the round ends
immediately with that team as winner by closing. -/
theorem playMeld_empty_hand_no_close :
    (playMeld bothPilesClaimedState 0 [hC .r7 0, dC .r7 0, cC .r7 0]).1.isOk = true ∧
    getHand (playMeld bothPilesClaimedState 0 [hC .r7 0, dC .r7 0, cC .r7 0]).2 0 = [] ∧
    (playMeld bothPilesClaimedState 0 [hC .r7 0, dC .r7 0, cC .r7 0]).2.isGameOver = false ∧
    (playMeld bothPilesClaimedState 0 [hC .r7 0, dC .r7 0, cC .r7 0]).2.winner = none := by
  refine ⟨?_, ?_, ?_, ?_⟩ <;> rfl

/-- C2 counterexample: starting from a full deal of the 108-card deck
(identity permutation), a run of ten successful actions leaves team A with
two claimed reserve piles, because discard hands out an available pile
without checking whether the team already claimed one. -/
theorem team_can_claim_two_pozzetti :
    (runActions traceInit traceActions).1 = true ∧
    ((runActions traceInit traceActions).2.team .A).pozzettoCount = 2 := by
  refine ⟨?_, ?_⟩ <;> rfl

/-- C3 evaluation at the failing input: a seven-card set of six 7s plus a
createDeck joker has all its non-wild cards of one rank and validateSet
marks it a non-clean burraco, yet calculateMeldScore files it as a dirty
burraco with the 200-point dirty bonus instead of a same-rank burraco with
the 100-point bonus, because isSameRankMeld filters out the rank string
WILD while the joker carries the rank JOKER. -/
theorem sameRank_burraco_with_joker_scored_dirty :
    (sameRankJokerCards.filter fun c => c.rank ≠ .rJOKER).all
      (fun c => c.rank = .r7) = true ∧
    (validateSet sameRankJokerCards).valid = true ∧
    (validateSet sameRankJokerCards).isBurraco = true ∧
    (validateSet sameRankJokerCards).isClean = false ∧
    isSameRankMeld sameRankJokerCards = false ∧
    calculateMeldScore [sameRankJokerMeld] =
      { score := 240, cleanBurracos := 0, dirtyBurracos := 1,
        sameRankBurracos := 0 } := by
  decide

/-- C4 counterexample: validateSequence rejects Ace, Queen and a wild of
one suit, contradicting the claim that a Queen with an available wild
makes the Ace high in sequence validation. -/
theorem validateSequence_ace_queen_wild_fails :
    (validateSequence [hC .rA 0, hC .rQ 0, jkC 0]).valid = false ∧
    (validateSequence [hC .rA 0, hC .rQ 0, jkC 0]).reason =
      "Not enough wild cards to fill gaps in sequence" := by
  decide

/-- C4 amended: in validateSequence the Ace is high exactly when a natural
King is among the candidates and no natural 2 or 3 is; a Queen or Jack
with a wild does not enable a high Ace there, so Ace-Queen-wild fails,
while the Queen-or-Jack-with-wild rule is applied by the extension helper
canFormSequenceWithWild, which accepts naturals Ace and Queen with one
wild. -/
theorem ace_high_rule_of_validateSequence :
    (validateSequence [hC .rA 0, hC .rK 0, jkC 0]).valid = true ∧
    (validateSequence [hC .rQ 0, hC .rK 0, hC .rA 0]).valid = true ∧
    (validateSequence [hC .rA 0, hC .r2 0, hC .r3 0]).valid = true ∧
    (validateSequence [hC .rA 0, hC .r2 0, hC .rK 0]).valid = false ∧
    (validateSequence [hC .rA 0, hC .rQ 0, jkC 0]).valid = false ∧
    (validateSequence [hC .rA 0, hC .rJ 0, jkC 0]).valid = false ∧
    canFormSequenceWithWild [hC .rA 0, hC .rQ 0] [jkC 0] .hearts = true := by
  decide

/-- C5 counterexample: with the constructor defaults (deckCount 3,
jokersPerDeck 2) the deck createDeck builds still has 108 cards with 4
jokers — two fixed copies of the 52-card pack plus two jokers each, not a
configurable three. -/
theorem createDeck_ignores_deckCount :
    (resolveConfig none none none).deckCount = 3 ∧
    (resolveConfig none none none).jokersPerDeck = 2 ∧
    createDeck.length = 108 ∧
    ¬createDeck.length = 3 * 54 ∧
    (createDeck.filter fun c => c.rank = .rJOKER).length = 4 := by
  decide

/-- C5 amended: deck construction is fixed at two copies of the standard
52-card pack plus two jokers per copy (108 cards, 4 jokers); the GameState
config records deckCount (default 3) and jokersPerDeck (default 2) without
createDeck consulting them; and the identity triples of the cards are
pairwise distinct, so duplicates across the copies stay distinguishable. -/
theorem createDeck_fixed_and_distinguishable :
    createDeck.length = 108 ∧
    (createDeck.filter fun c => c.rank = .rJOKER).length = 4 ∧
    (createDeck.filter fun c => c.rank ≠ .rJOKER).length = 2 * 52 ∧
    createDeck.Nodup ∧
    (resolveConfig none none none).deckCount = 3 ∧
    (resolveConfig none none none).jokersPerDeck = 2 := by
  decide

/-- C9 counterexample: a complete turn — a successful draw followed by a
successful discard that advances the turn counter and the player index —
in which the phase goes DRAW to MELD and back to DRAW and is never
DISCARD, contradicting the claim that each turn passes through the
DISCARD phase. -/
theorem turn_never_enters_discard_phase :
    (drawFromPile oneTurnState 0).1.isOk = true ∧
    (discard oneTurnAfterDraw 0 (hC .r3 0)).1.isOk = true ∧
    oneTurnState.currentPhase = .draw ∧
    oneTurnAfterDraw.currentPhase = .meld ∧
    oneTurnAfterDiscard.currentPhase = .draw ∧
    oneTurnAfterDiscard.turnCount = oneTurnState.turnCount + 1 ∧
    oneTurnAfterDiscard.currentPlayerIndex = 1 ∧
    oneTurnState.currentPhase ≠ .discard ∧
    oneTurnAfterDraw.currentPhase ≠ .discard ∧
    oneTurnAfterDiscard.currentPhase ≠ .discard := by
  decide

/-- C7 witness: the valid-set constraints instantiated at two 7s and a
joker. -/
theorem only_joker_rank_is_wild_witness :
    (([hC .r7 0, sC .r7 0, jkC 0].filter fun c => c.rank = Rank.rJOKER).length ≤ 1 ∧
     ((validateSet [hC .r7 0, sC .r7 0, jkC 0]).isClean = true ↔
       ([hC .r7 0, sC .r7 0, jkC 0].filter fun c => c.rank = Rank.rJOKER).length = 0) ∧
     ∀ c ∈ [hC .r7 0, sC .r7 0, jkC 0], c.rank ≠ Rank.rJOKER →
       some c.rank = (validateSet [hC .r7 0, sC .r7 0, jkC 0]).rank) :=
  only_joker_rank_is_wild.1 [hC .r7 0, sC .r7 0, jkC 0]
    (validateSet [hC .r7 0, sC .r7 0, jkC 0]) rfl (by decide)

/-- Reading back a key just overwritten in the hands map. -/
theorem handsGet_map_set (l : List (Nat × List Card)) (pid : Nat) (cs : List Card)
    (hany : (l.any fun e => e.1 = pid) = true) :
    handsGet (l.map fun e => if e.1 = pid then (pid, cs) else e) pid = cs := by
  induction l with
  | nil => simp at hany
  | cons e t ih =>
      by_cases he : e.1 = pid
      · simp [handsGet, he]
      · simp only [List.any_cons, Bool.or_eq_true, decide_eq_true_eq] at hany
        rcases hany with hany | hany
        · exact absurd hany he
        · simpa [handsGet, he] using ih (by simpa using hany)

/-- Reading back a key just appended to the hands map. -/
theorem handsGet_append (l : List (Nat × List Card)) (pid : Nat) (cs : List Card)
    (hnone : (l.any fun e => e.1 = pid) = false) :
    handsGet (l ++ [(pid, cs)]) pid = cs := by
  induction l with
  | nil => simp [handsGet]
  | cons e t ih =>
      simp only [List.any_cons, Bool.or_eq_false_iff] at hnone
      have he : ¬(e.1 = pid) := by simpa using hnone.1
      simpa [handsGet, he] using ih hnone.2

/-- Reading back a key just written into the hands map. -/
theorem handsGet_handsSet (l : List (Nat × List Card)) (pid : Nat) (cs : List Card) :
    handsGet (handsSet l pid cs) pid = cs := by
  unfold handsSet
  split
  · exact handsGet_map_set l pid cs (by assumption)
  · rename_i hn
    have hb : (l.any fun e => e.1 = pid) = false := by
      cases hb : l.any fun e => e.1 = pid
      · rfl
      · exact absurd hb hn
    exact handsGet_append l pid cs hb

/-- Clearing slot i makes reading slot i give the empty pile. -/
theorem getD_set_nil : ∀ (l : List (List Card)) (i : Nat), (l.set i []).getD i [] = []
  | [], _ => rfl
  | _ :: _, 0 => rfl
  | _ :: t, n + 1 => getD_set_nil t n

/-- The pozzetto search returns an index at or past its start and the pile
sitting at that index. -/
theorem findAvailablePozzetto_getD (s : GameState) :
    ∀ (l : List (List Card)) (j i : Nat) (pile : List Card),
      findAvailablePozzetto s j l = some (i, pile) →
      j ≤ i ∧ l.getD (i - j) [] = pile := by
  intro l
  induction l with
  | nil => intro j i pile h; simp [findAvailablePozzetto] at h
  | cons p t ih =>
      intro j i pile h
      unfold findAvailablePozzetto at h
      dsimp only at h
      split at h
      · simp only [Option.some.injEq, Prod.mk.injEq] at h
        obtain ⟨rfl, rfl⟩ := h
        simp
      · obtain ⟨hle, hget⟩ := ih (j + 1) i pile h
        refine ⟨by omega, ?_⟩
        have hik : i - j = (i - (j + 1)) + 1 := by omega
        rw [hik]
        simpa using hget

/-- Every invalid validateSet result carries a non-empty reason. -/
theorem validateSet_fail_reason (cards : List Card) :
    (validateSet cards).valid = true ∨ (validateSet cards).reason ≠ "" := by
  unfold validateSet
  dsimp only
  repeat' split
  all_goals first | (left; rfl) | (right; decide)

/-- Every invalid validateSequence result carries a non-empty reason. -/
theorem validateSequence_fail_reason (cards : List Card) :
    (validateSequence cards).valid = true ∨ (validateSequence cards).reason ≠ "" := by
  unfold validateSequence
  dsimp only
  repeat' split
  all_goals first | (left; rfl) | (right; decide)

/-- Every invalid validateMeld result carries a non-empty reason. -/
theorem validateMeld_fail_reason (cards : List Card) :
    (validateMeld cards).valid = true ∨ (validateMeld cards).reason ≠ "" := by
  unfold validateMeld
  dsimp only
  split
  · right; decide
  · split
    · rename_i hv; left; exact hv
    · split
      · rename_i hv; left; exact hv
      · right; decide

/-- An invalid validateMeld result carries a non-empty reason. -/
theorem validateMeld_reason_ne (cards : List Card)
    (h : (validateMeld cards).valid = false) : (validateMeld cards).reason ≠ "" := by
  rcases validateMeld_fail_reason cards with hv | hr
  · rw [h] at hv; exact absurd hv (by simp)
  · exact hr

/-- Every invalid canExtendMeld result carries a non-empty reason. -/
theorem canExtendMeld_fail_reason (existingMeld newCards : List Card)
    (info : MeldInfo) :
    (canExtendMeld existingMeld newCards info).valid = true ∨
    (canExtendMeld existingMeld newCards info).reason ≠ "" := by
  unfold canExtendMeld
  dsimp only
  split
  · exact validateSet_fail_reason (existingMeld ++ newCards)
  · exact validateSequence_fail_reason (existingMeld ++ newCards)

/-- An invalid canExtendMeld result carries a non-empty reason. -/
theorem canExtendMeld_reason_ne (existingMeld newCards : List Card)
    (info : MeldInfo)
    (h : (canExtendMeld existingMeld newCards info).valid = false) :
    (canExtendMeld existingMeld newCards info).reason ≠ "" := by
  rcases canExtendMeld_fail_reason existingMeld newCards info with hv | hr
  · rw [h] at hv; exact absurd hv (by simp)
  · exact hr

/-- A failed drawFromPile reports a non-empty reason and returns the state
untouched. -/
theorem drawFromPile_fail (s : GameState) (pid : Nat) (reason : String)
    (t : GameState) (h : drawFromPile s pid = (.fail reason, t)) :
    t = s ∧ reason ≠ "" := by
  unfold drawFromPile at h
  dsimp only at h
  repeat' split at h
  all_goals
    first
      | (simp only [Prod.mk.injEq, ActRes.fail.injEq] at h
         obtain ⟨h1, h2⟩ := h
         first
           | exact ActRes.noConfusion h1
           | (subst h2
              refine ⟨rfl, ?_⟩
              rw [← h1]
              decide))

/-- A failed takeDiscardPile reports a non-empty reason and returns the
state untouched. -/
theorem takeDiscardPile_fail (s : GameState) (pid : Nat) (reason : String)
    (t : GameState) (h : takeDiscardPile s pid = (.fail reason, t)) :
    t = s ∧ reason ≠ "" := by
  unfold takeDiscardPile at h
  dsimp only at h
  repeat' split at h
  all_goals
    first
      | (simp only [Prod.mk.injEq, ActRes.fail.injEq] at h
         obtain ⟨h1, h2⟩ := h
         first
           | exact ActRes.noConfusion h1
           | (subst h2
              refine ⟨rfl, ?_⟩
              rw [← h1]
              decide))

/-- An if whose branches are both successes never equals a failure. -/
theorem ite_ok_ne_fail {c : Prop} [inst : Decidable c] {x y : OkPayload}
    {u v t : GameState} {reason : String}
    (h : (if c then ((ActRes.ok x, u) : ActRes × GameState) else (.ok y, v)) =
      (.fail reason, t)) : False := by
  by_cases hc : c
  · rw [if_pos hc] at h; simp at h
  · rw [if_neg hc] at h; simp at h

/-- handleEmptyHand never reports failure. -/
theorem handleEmptyHand_no_fail (s : GameState) (pid : Nat) (reason : String)
    (t : GameState) (h : handleEmptyHand s pid = (.fail reason, t)) : False := by
  unfold handleEmptyHand at h
  repeat' split at h
  all_goals first
    | exact ite_ok_ne_fail h
    | simp at h

/-- A failed playMeld reports a non-empty reason and returns the state
untouched. -/
theorem playMeld_fail (s : GameState) (pid : Nat) (cardIds : List Card)
    (reason : String) (t : GameState)
    (h : playMeld s pid cardIds = (.fail reason, t)) :
    t = s ∧ reason ≠ "" := by
  unfold playMeld at h
  dsimp only at h
  repeat' split at h
  all_goals
    first
      | exact absurd h (fun hh => handleEmptyHand_no_fail _ _ _ _ hh)
      | (simp only [Prod.mk.injEq, ActRes.fail.injEq] at h
         obtain ⟨h1, h2⟩ := h
         first
           | exact ActRes.noConfusion h1
           | (subst h2
              refine ⟨rfl, ?_⟩
              rw [← h1]
              first
                | decide
                | (apply validateMeld_reason_ne; simp_all)))

/-- A failed extendMeld reports a non-empty reason and returns the state
untouched. -/
theorem extendMeld_fail (s : GameState) (pid : Nat) (meldId : Nat)
    (cardIds : List Card) (reason : String) (t : GameState)
    (h : extendMeld s pid meldId cardIds = (.fail reason, t)) :
    t = s ∧ reason ≠ "" := by
  unfold extendMeld at h
  dsimp only at h
  repeat' split at h
  all_goals
    first
      | exact absurd h (fun hh => handleEmptyHand_no_fail _ _ _ _ hh)
      | (simp only [Prod.mk.injEq, ActRes.fail.injEq] at h
         obtain ⟨h1, h2⟩ := h
         first
           | exact ActRes.noConfusion h1
           | (subst h2
              refine ⟨rfl, ?_⟩
              rw [← h1]
              first
                | decide
                | (apply canExtendMeld_reason_ne; simp_all)))

/-- A failed replaceWildInMeld reports a non-empty reason and returns the
state untouched. -/
theorem replaceWildInMeld_fail (s : GameState) (pid : Nat) (meldId : Nat)
    (wildCardId naturalCardId : Card) (reason : String) (t : GameState)
    (h : replaceWildInMeld s pid meldId wildCardId naturalCardId = (.fail reason, t)) :
    t = s ∧ reason ≠ "" := by
  unfold replaceWildInMeld at h
  dsimp only at h
  repeat' split at h
  all_goals
    first
      | (simp only [Prod.mk.injEq, ActRes.fail.injEq] at h
         obtain ⟨h1, h2⟩ := h
         first
           | exact ActRes.noConfusion h1
           | (subst h2
              refine ⟨rfl, ?_⟩
              rw [← h1]
              decide))

/-- A failed discard reports a non-empty reason and returns the state
untouched. -/
theorem discard_fail (s : GameState) (pid : Nat) (cid : Card)
    (reason : String) (t : GameState)
    (h : discard s pid cid = (.fail reason, t)) :
    t = s ∧ reason ≠ "" := by
  unfold discard at h
  dsimp only at h
  repeat' split at h
  all_goals
    first
      | (simp only [Prod.mk.injEq, ActRes.fail.injEq] at h
         obtain ⟨h1, h2⟩ := h
         first
           | exact ActRes.noConfusion h1
           | (subst h2
              refine ⟨rfl, ?_⟩
              rw [← h1]
              decide))

/-- C8: a public action that fails returns a non-empty reason string and
leaves the round state exactly as it was; in particular drawing from an
empty draw pile while on turn in the DRAW phase fails with the empty-pile
reason and changes nothing. -/
theorem failed_actions_leave_state_unchanged :
    (∀ (s : GameState) (a : Action) (reason : String) (t : GameState),
        stepAction s a = (.fail reason, t) → t = s ∧ reason ≠ "") ∧
    (∀ (s : GameState) (pid : Nat) (cur : Player),
        s.players.get? s.currentPlayerIndex = some cur → pid = cur.socketId →
        s.currentPhase = .draw → s.drawPile = [] →
        drawFromPile s pid = (.fail "Draw pile is empty", s)) := by
  constructor
  · intro s a reason t h
    cases a with
    | draw pid => exact drawFromPile_fail s pid reason t h
    | take pid => exact takeDiscardPile_fail s pid reason t h
    | play pid cardIds => exact playMeld_fail s pid cardIds reason t h
    | extend pid meldId cardIds =>
        exact extendMeld_fail s pid meldId cardIds reason t h
    | replaceWild pid meldId w n =>
        exact replaceWildInMeld_fail s pid meldId w n reason t h
    | disc pid cid => exact discard_fail s pid cid reason t h
  · intro s pid cur hget hpid hphase hpile
    unfold drawFromPile
    rw [hget]
    simp [hpid, hphase, hpile]

/-- C8 witness: the empty-draw-pile failure at a concrete round. -/
theorem failed_actions_leave_state_unchanged_witness :
    drawFromPile emptyDrawPileState 0 =
      (.fail "Draw pile is empty", emptyDrawPileState) :=
  failed_actions_leave_state_unchanged.2 emptyDrawPileState 0 ⟨0, .A⟩
    rfl rfl rfl rfl

/-- setHand changes only the hands map. -/
theorem setHand_phase (s : GameState) (pid : Nat) (cs : List Card) :
    (setHand s pid cs).currentPhase = s.currentPhase := rfl

/-- setHand keeps the player index. -/
theorem setHand_index (s : GameState) (pid : Nat) (cs : List Card) :
    (setHand s pid cs).currentPlayerIndex = s.currentPlayerIndex := rfl

/-- setHand keeps the turn counter. -/
theorem setHand_turnCount (s : GameState) (pid : Nat) (cs : List Card) :
    (setHand s pid cs).turnCount = s.turnCount := rfl

/-- setHand keeps the game-over flag. -/
theorem setHand_isGameOver (s : GameState) (pid : Nat) (cs : List Card) :
    (setHand s pid cs).isGameOver = s.isGameOver := rfl

/-- setHand keeps the pozzetti. -/
theorem setHand_pozzetti (s : GameState) (pid : Nat) (cs : List Card) :
    (setHand s pid cs).pozzetti = s.pozzetti := rfl

/-- setHand keeps the roster. -/
theorem setHand_players (s : GameState) (pid : Nat) (cs : List Card) :
    (setHand s pid cs).players = s.players := rfl

/-- setHand keeps the player count. -/
theorem setHand_playerCount (s : GameState) (pid : Nat) (cs : List Card) :
    (setHand s pid cs).playerCount = s.playerCount := rfl

/-- setHand keeps the teams. -/
theorem setHand_team (s : GameState) (pid : Nat) (cs : List Card) (tid : TeamId) :
    (setHand s pid cs).team tid = s.team tid := by
  cases tid <;> rfl

/-- The hand written by setHand reads back. -/
theorem getHand_setHand (s : GameState) (pid : Nat) (cs : List Card) :
    getHand (setHand s pid cs) pid = cs := by
  unfold getHand setHand
  exact handsGet_handsSet s.hands pid cs

/-- setTeam changes only the named team. -/
theorem setTeam_phase (s : GameState) (tid : TeamId) (t : Team) :
    (setTeam s tid t).currentPhase = s.currentPhase := by cases tid <;> rfl

/-- setTeam keeps the player index. -/
theorem setTeam_index (s : GameState) (tid : TeamId) (t : Team) :
    (setTeam s tid t).currentPlayerIndex = s.currentPlayerIndex := by
  cases tid <;> rfl

/-- setTeam keeps the turn counter. -/
theorem setTeam_turnCount (s : GameState) (tid : TeamId) (t : Team) :
    (setTeam s tid t).turnCount = s.turnCount := by cases tid <;> rfl

/-- setTeam keeps the game-over flag. -/
theorem setTeam_isGameOver (s : GameState) (tid : TeamId) (t : Team) :
    (setTeam s tid t).isGameOver = s.isGameOver := by cases tid <;> rfl

/-- setTeam keeps the pozzetti. -/
theorem setTeam_pozzetti (s : GameState) (tid : TeamId) (t : Team) :
    (setTeam s tid t).pozzetti = s.pozzetti := by cases tid <;> rfl

/-- setTeam keeps the roster. -/
theorem setTeam_players (s : GameState) (tid : TeamId) (t : Team) :
    (setTeam s tid t).players = s.players := by cases tid <;> rfl

/-- setTeam keeps the player count. -/
theorem setTeam_playerCount (s : GameState) (tid : TeamId) (t : Team) :
    (setTeam s tid t).playerCount = s.playerCount := by cases tid <;> rfl

/-- setTeam keeps the hands map. -/
theorem setTeam_hands (s : GameState) (tid : TeamId) (t : Team) :
    (setTeam s tid t).hands = s.hands := by cases tid <;> rfl

/-- setTeam keeps every hand readable. -/
theorem getHand_setTeam (s : GameState) (tid : TeamId) (t : Team) (pid : Nat) :
    getHand (setTeam s tid t) pid = getHand s pid := by
  cases tid <;> rfl

/-- The team written by setTeam reads back. -/
theorem team_setTeam_self (s : GameState) (tid : TeamId) (t : Team) :
    (setTeam s tid t).team tid = t := by cases tid <;> rfl

/-- endGame changes only the game-over flag, scores and winner. -/
theorem endGame_phase (s : GameState) : (endGame s).currentPhase = s.currentPhase := rfl

/-- endGame keeps the player index. -/
theorem endGame_index (s : GameState) :
    (endGame s).currentPlayerIndex = s.currentPlayerIndex := rfl

/-- endGame keeps the turn counter. -/
theorem endGame_turnCount (s : GameState) : (endGame s).turnCount = s.turnCount := rfl

/-- endGame raises the game-over flag. -/
theorem endGame_isGameOver (s : GameState) : (endGame s).isGameOver = true := rfl

/-- nextTurn enters the DRAW phase. -/
theorem nextTurn_phase (s : GameState) : (nextTurn s).currentPhase = .draw := rfl

/-- nextTurn advances the player index cyclically. -/
theorem nextTurn_index (s : GameState) :
    (nextTurn s).currentPlayerIndex = (s.currentPlayerIndex + 1) % s.playerCount := rfl

/-- nextTurn advances the turn counter. -/
theorem nextTurn_turnCount (s : GameState) : (nextTurn s).turnCount = s.turnCount + 1 := rfl

/-- nextTurn keeps the game-over flag. -/
theorem nextTurn_isGameOver (s : GameState) : (nextTurn s).isGameOver = s.isGameOver := rfl

/-- nextTurn keeps every hand. -/
theorem getHand_nextTurn (s : GameState) (pid : Nat) :
    getHand (nextTurn s) pid = getHand s pid := rfl

/-- nextTurn keeps the pozzetti. -/
theorem nextTurn_pozzetti (s : GameState) : (nextTurn s).pozzetti = s.pozzetti := rfl

/-- nextTurn keeps the teams. -/
theorem nextTurn_team (s : GameState) (tid : TeamId) :
    (nextTurn s).team tid = s.team tid := by cases tid <;> rfl

/-- handleEmptyHand with the acting team already holding a pozzetto:
only the canGoOut flag is reported, the state is untouched. -/
theorem handleEmptyHand_took (s : GameState) (pid : Nat) (player : Player)
    (hfind : (s.players.find? fun p => p.socketId = pid) = some player)
    (htook : (s.team player.team).tookPozzetto = true) :
    handleEmptyHand s pid = (.ok { canGoOut := true }, s) := by
  unfold handleEmptyHand
  rw [hfind]
  simp [htook]

/-- handleEmptyHand with no pozzetto available: nothing happens. -/
theorem handleEmptyHand_none (s : GameState) (pid : Nat) (player : Player)
    (hfind : (s.players.find? fun p => p.socketId = pid) = some player)
    (htook : (s.team player.team).tookPozzetto = false)
    (havail : findAvailablePozzetto s 0 s.pozzetti = none) :
    handleEmptyHand s pid = (.ok {}, s) := by
  unfold handleEmptyHand
  rw [hfind]
  simp [htook, havail]

/-- Overriding the pozzetti leaves both teams unchanged. -/
theorem team_update_pozzetti (s : GameState) (p : List (List Card)) (tid : TeamId) :
    ({ s with pozzetti := p } : GameState).team tid = s.team tid := by
  cases tid <;> rfl

/-- refillState keeps the phase. -/
theorem refillState_phase (s : GameState) (pid : Nat) (tid : TeamId) (i : Nat)
    (pile : List Card) : (refillState s pid tid i pile).currentPhase = s.currentPhase := by
  cases tid <;> rfl

/-- refillState keeps the player index. -/
theorem refillState_index (s : GameState) (pid : Nat) (tid : TeamId) (i : Nat)
    (pile : List Card) :
    (refillState s pid tid i pile).currentPlayerIndex = s.currentPlayerIndex := by
  cases tid <;> rfl

/-- refillState keeps the turn counter. -/
theorem refillState_turnCount (s : GameState) (pid : Nat) (tid : TeamId) (i : Nat)
    (pile : List Card) : (refillState s pid tid i pile).turnCount = s.turnCount := by
  cases tid <;> rfl

/-- refillState keeps the game-over flag. -/
theorem refillState_isGameOver (s : GameState) (pid : Nat) (tid : TeamId) (i : Nat)
    (pile : List Card) : (refillState s pid tid i pile).isGameOver = s.isGameOver := by
  cases tid <;> rfl

/-- refillState keeps the player count. -/
theorem refillState_playerCount (s : GameState) (pid : Nat) (tid : TeamId) (i : Nat)
    (pile : List Card) : (refillState s pid tid i pile).playerCount = s.playerCount := by
  cases tid <;> rfl

/-- The refilled hand reads back as the claimed pile. -/
theorem getHand_refillState (s : GameState) (pid : Nat) (tid : TeamId) (i : Nat)
    (pile : List Card) : getHand (refillState s pid tid i pile) pid = pile := by
  cases tid <;> exact handsGet_handsSet s.hands pid pile

/-- The claiming team after refillState. -/
theorem refillState_team_self (s : GameState) (pid : Nat) (tid : TeamId) (i : Nat)
    (pile : List Card) :
    (refillState s pid tid i pile).team tid =
      { s.team tid with tookPozzetto := true, pozzettoIndex := some i,
                        pozzettoCount := (s.team tid).pozzettoCount + 1 } := by
  cases tid <;> rfl

/-- The pozzetti after refillState: slot i is emptied. -/
theorem refillState_pozzetti (s : GameState) (pid : Nat) (tid : TeamId) (i : Nat)
    (pile : List Card) :
    (refillState s pid tid i pile).pozzetti = s.pozzetti.set i [] := by
  cases tid <;> rfl

/-- handleEmptyHand refill: the first available pozzetto becomes the hand,
the team records the claim, and the pile is emptied. -/
theorem handleEmptyHand_refill (s : GameState) (pid : Nat) (player : Player)
    (i : Nat) (pile : List Card)
    (hfind : (s.players.find? fun p => p.socketId = pid) = some player)
    (htook : (s.team player.team).tookPozzetto = false)
    (havail : findAvailablePozzetto s 0 s.pozzetti = some (i, pile)) :
    (handleEmptyHand s pid).1 = .ok { tookPozzetto := true, pozzettoIndex := some i } ∧
    getHand (handleEmptyHand s pid).2 pid = s.pozzetti.getD i [] ∧
    ((handleEmptyHand s pid).2.team player.team).tookPozzetto = true ∧
    ((handleEmptyHand s pid).2.team player.team).pozzettoCount =
      (s.team player.team).pozzettoCount + 1 ∧
    (handleEmptyHand s pid).2.pozzetti.getD i [] = [] := by
  have hgetD : s.pozzetti.getD i [] = pile := by
    have hs := findAvailablePozzetto_getD s s.pozzetti 0 i pile havail
    simpa using hs.2
  have heq : handleEmptyHand s pid =
      (.ok { tookPozzetto := true, pozzettoIndex := some i },
        refillState s pid player.team i pile) := by
    unfold handleEmptyHand
    rw [hfind]
    simp [htook, havail]
  rw [heq]
  refine ⟨rfl, ?_, ?_, ?_, ?_⟩
  · rw [hgetD]
    exact getHand_refillState s pid player.team i pile
  · rw [refillState_team_self]
  · rw [refillState_team_self]
  · rw [refillState_pozzetti]
    exact getD_set_nil s.pozzetti i

/-- handleEmptyHand never touches phase, player index, turn counter or the
game-over flag. -/
theorem handleEmptyHand_preserves (s : GameState) (pid : Nat) :
    ((handleEmptyHand s pid).2).currentPhase = s.currentPhase ∧
    ((handleEmptyHand s pid).2).currentPlayerIndex = s.currentPlayerIndex ∧
    ((handleEmptyHand s pid).2).turnCount = s.turnCount ∧
    ((handleEmptyHand s pid).2).isGameOver = s.isGameOver := by
  unfold handleEmptyHand
  rcases hfind : s.players.find? fun p => p.socketId = pid with _ | player
  · rw [hfind]
    exact ⟨rfl, rfl, rfl, rfl⟩
  · rw [hfind]
    by_cases htook : (s.team player.team).tookPozzetto = true
    · simp [htook]
    · rcases havail : findAvailablePozzetto s 0 s.pozzetti with _ | ⟨i, pile⟩
      · simp [htook, havail]
      · simp [htook, havail, refillState_phase, refillState_index,
          refillState_turnCount, refillState_isGameOver]

/-- When handleEmptyHand reports a pozzetto pickup, the hand has become
the pile of the reported slot and that slot is now empty. -/
theorem handleEmptyHand_ok (s : GameState) (pid : Nat) (pl : OkPayload)
    (t : GameState) (h : handleEmptyHand s pid = (.ok pl, t))
    (hp : pl.tookPozzetto = true) :
    ∀ i, pl.pozzettoIndex = some i →
      getHand t pid = s.pozzetti.getD i [] ∧ t.pozzetti.getD i [] = [] := by
  unfold handleEmptyHand at h
  rcases hfind : s.players.find? fun p => p.socketId = pid with _ | player
  · rw [hfind] at h
    simp only [Prod.mk.injEq, ActRes.ok.injEq] at h
    rw [← h.1] at hp
    simp at hp
  · rw [hfind] at h
    dsimp only at h
    by_cases htook : (s.team player.team).tookPozzetto = true
    · rw [if_pos htook] at h
      simp only [Prod.mk.injEq, ActRes.ok.injEq] at h
      rw [← h.1] at hp
      simp at hp
    · rw [if_neg htook] at h
      rcases havail : findAvailablePozzetto s 0 s.pozzetti with _ | ⟨i0, pile⟩
      · rw [havail] at h
        simp only [Prod.mk.injEq, ActRes.ok.injEq] at h
        rw [← h.1] at hp
        simp at hp
      · rw [havail] at h
        simp only [Prod.mk.injEq, ActRes.ok.injEq] at h
        obtain ⟨hpl, ht⟩ := h
        intro i hi
        rw [← hpl] at hi
        simp only [Option.some.injEq] at hi
        subst hi
        subst ht
        have hgetD : s.pozzetti.getD i0 [] = pile := by
          have hs := findAvailablePozzetto_getD s s.pozzetti 0 i0 pile havail
          simpa using hs.2
        constructor
        · rw [getHand_refillState, hgetD]
        · rw [refillState_pozzetti]
          exact getD_set_nil s.pozzetti i0

/-- The projection of handleEmptyHand_preserves used by simp: phase. -/
theorem handleEmptyHand_phase (s : GameState) (pid : Nat) :
    ((handleEmptyHand s pid).2).currentPhase = s.currentPhase :=
  (handleEmptyHand_preserves s pid).1

/-- The projection of handleEmptyHand_preserves used by simp: index. -/
theorem handleEmptyHand_index (s : GameState) (pid : Nat) :
    ((handleEmptyHand s pid).2).currentPlayerIndex = s.currentPlayerIndex :=
  (handleEmptyHand_preserves s pid).2.1

/-- The projection of handleEmptyHand_preserves used by simp: turns. -/
theorem handleEmptyHand_turnCount (s : GameState) (pid : Nat) :
    ((handleEmptyHand s pid).2).turnCount = s.turnCount :=
  (handleEmptyHand_preserves s pid).2.2.1

/-- The projection of handleEmptyHand_preserves used by simp: game over. -/
theorem handleEmptyHand_gameOver (s : GameState) (pid : Nat) :
    ((handleEmptyHand s pid).2).isGameOver = s.isGameOver :=
  (handleEmptyHand_preserves s pid).2.2.2

/-- playMeld never touches phase, player index, turn counter or the
game-over flag. -/
theorem playMeld_preserves (s : GameState) (pid : Nat) (cardIds : List Card)
    (r : ActRes) (t : GameState) (h : playMeld s pid cardIds = (r, t)) :
    t.currentPhase = s.currentPhase ∧
    t.currentPlayerIndex = s.currentPlayerIndex ∧
    t.turnCount = s.turnCount ∧
    t.isGameOver = s.isGameOver := by
  unfold playMeld at h
  dsimp only at h
  repeat' split at h
  all_goals
    (have ht := congrArg Prod.snd h
     dsimp only at ht
     rw [← ht]
     refine ⟨?_, ?_, ?_, ?_⟩ <;>
       first
         | rfl
         | simp [handleEmptyHand_phase, handleEmptyHand_index,
             handleEmptyHand_turnCount, handleEmptyHand_gameOver,
             setHand_phase, setHand_index, setHand_turnCount, setHand_isGameOver,
             setTeam_phase, setTeam_index, setTeam_turnCount, setTeam_isGameOver])

/-- extendMeld never touches phase, player index, turn counter or the
game-over flag. -/
theorem extendMeld_preserves (s : GameState) (pid : Nat) (meldId : Nat)
    (cardIds : List Card) (r : ActRes) (t : GameState)
    (h : extendMeld s pid meldId cardIds = (r, t)) :
    t.currentPhase = s.currentPhase ∧
    t.currentPlayerIndex = s.currentPlayerIndex ∧
    t.turnCount = s.turnCount ∧
    t.isGameOver = s.isGameOver := by
  unfold extendMeld at h
  dsimp only at h
  repeat' split at h
  all_goals
    (have ht := congrArg Prod.snd h
     dsimp only at ht
     rw [← ht]
     refine ⟨?_, ?_, ?_, ?_⟩ <;>
       first
         | rfl
         | simp [handleEmptyHand_phase, handleEmptyHand_index,
             handleEmptyHand_turnCount, handleEmptyHand_gameOver,
             setHand_phase, setHand_index, setHand_turnCount, setHand_isGameOver,
             setTeam_phase, setTeam_index, setTeam_turnCount, setTeam_isGameOver])

/-- replaceWildInMeld never touches phase, player index, turn counter or
the game-over flag. -/
theorem replaceWildInMeld_preserves (s : GameState) (pid : Nat) (meldId : Nat)
    (wildCardId naturalCardId : Card) (r : ActRes) (t : GameState)
    (h : replaceWildInMeld s pid meldId wildCardId naturalCardId = (r, t)) :
    t.currentPhase = s.currentPhase ∧
    t.currentPlayerIndex = s.currentPlayerIndex ∧
    t.turnCount = s.turnCount ∧
    t.isGameOver = s.isGameOver := by
  unfold replaceWildInMeld at h
  dsimp only at h
  repeat' split at h
  all_goals
    (have ht := congrArg Prod.snd h
     dsimp only at ht
     rw [← ht]
     refine ⟨?_, ?_, ?_, ?_⟩ <;>
       first
         | rfl
         | simp [setHand_phase, setHand_index, setHand_turnCount, setHand_isGameOver,
             setTeam_phase, setTeam_index, setTeam_turnCount, setTeam_isGameOver])

/-- drawFromPile: the index, turn counter and game-over flag never move,
and a success enters the MELD phase. -/
theorem drawFromPile_shape (s : GameState) (pid : Nat) (r : ActRes)
    (t : GameState) (h : drawFromPile s pid = (r, t)) :
    t.currentPlayerIndex = s.currentPlayerIndex ∧
    t.turnCount = s.turnCount ∧
    t.isGameOver = s.isGameOver ∧
    (r.isOk = true → t.currentPhase = .meld) := by
  unfold drawFromPile at h
  dsimp only at h
  repeat' split at h
  all_goals
    (have hr := congrArg Prod.fst h
     have ht := congrArg Prod.snd h
     dsimp only at hr ht
     rw [← hr, ← ht]
     refine ⟨?_, ?_, ?_, ?_⟩ <;>
       simp [ActRes.isOk, setHand_phase, setHand_index, setHand_turnCount,
         setHand_isGameOver])

/-- takeDiscardPile: the index, turn counter and game-over flag never
move, and a success enters the MELD phase. -/
theorem takeDiscardPile_shape (s : GameState) (pid : Nat) (r : ActRes)
    (t : GameState) (h : takeDiscardPile s pid = (r, t)) :
    t.currentPlayerIndex = s.currentPlayerIndex ∧
    t.turnCount = s.turnCount ∧
    t.isGameOver = s.isGameOver ∧
    (r.isOk = true → t.currentPhase = .meld) := by
  unfold takeDiscardPile at h
  dsimp only at h
  repeat' split at h
  all_goals
    (have hr := congrArg Prod.fst h
     have ht := congrArg Prod.snd h
     dsimp only at hr ht
     rw [← hr, ← ht]
     refine ⟨?_, ?_, ?_, ?_⟩ <;>
       simp [ActRes.isOk, setHand_phase, setHand_index, setHand_turnCount,
         setHand_isGameOver])

/-- discard on success: a non-closing success hands the turn on (DRAW
phase, next player, turn counter up); a closing success freezes phase and
index and marks the round over; a success that reports a pozzetto pickup
is non-closing, puts the claimed pile into the hand and empties its slot. -/
theorem discard_ok (s : GameState) (pid : Nat) (cid : Card) (pl : OkPayload)
    (t : GameState) (h : discard s pid cid = (.ok pl, t)) :
    (pl.gameOver = false →
      t.currentPhase = .draw ∧
      t.currentPlayerIndex = (s.currentPlayerIndex + 1) % s.playerCount ∧
      t.turnCount = s.turnCount + 1) ∧
    (pl.gameOver = true →
      t.currentPhase = s.currentPhase ∧
      t.currentPlayerIndex = s.currentPlayerIndex ∧
      t.isGameOver = true) ∧
    (pl.tookPozzetto = true →
      pl.gameOver = false ∧
      ∀ i, pl.pozzettoIndex = some i →
        getHand t pid = s.pozzetti.getD i [] ∧ t.pozzetti.getD i [] = []) := by
  unfold discard at h
  dsimp only at h
  repeat' split at h
  all_goals
    first
      | (exfalso
         simp only [Prod.mk.injEq] at h
         exact ActRes.noConfusion h.1)
      | (simp only [Prod.mk.injEq, ActRes.ok.injEq] at h
         obtain ⟨hpl, ht⟩ := h
         subst ht
         refine ⟨?_, ?_, ?_⟩ <;> rw [← hpl] <;> intro hcase
         · first
             | (exfalso; simp at hcase; done)
             | (refine ⟨?_, ?_, ?_⟩ <;>
                 simp [nextTurn_phase, nextTurn_index, nextTurn_turnCount,
                   refillState_index, refillState_turnCount, refillState_playerCount,
                   setHand_phase, setHand_index, setHand_turnCount, setHand_playerCount,
                   setHand_isGameOver])
         · first
             | (exfalso; simp at hcase; done)
             | (refine ⟨?_, ?_, ?_⟩ <;>
                 simp [endGame_phase, endGame_index, endGame_isGameOver,
                   setTeam_phase, setTeam_index, setHand_phase, setHand_index])
         · first
             | (exfalso; simp at hcase; done)
             | (refine ⟨rfl, ?_⟩
                intro i hi
                simp only [Option.some.injEq] at hi
                subst hi
                constructor
                · simp [getHand_nextTurn, getHand_refillState, setHand_pozzetti]
                · simp only [nextTurn_pozzetti, refillState_pozzetti,
                    setHand_pozzetti]
                  exact getD_set_nil s.pozzetti _))

/-- Overriding the discard pile leaves both teams unchanged. -/
theorem team_update_discardPile (s : GameState) (d : List Card) (tid : TeamId) :
    ({ s with discardPile := d } : GameState).team tid = s.team tid := by
  cases tid <;> rfl

/-- A playMeld success that reports a pozzetto pickup happened in the MELD
phase and put the pile of the reported slot into the hand, emptying it. -/
theorem playMeld_ok_refill (s : GameState) (pid : Nat) (cardIds : List Card)
    (pl : OkPayload) (t : GameState)
    (h : playMeld s pid cardIds = (.ok pl, t)) (hp : pl.tookPozzetto = true) :
    s.currentPhase = .meld ∧
    ∀ i, pl.pozzettoIndex = some i →
      getHand t pid = s.pozzetti.getD i [] ∧ t.pozzetti.getD i [] = [] := by
  unfold playMeld at h
  dsimp only at h
  repeat' split at h
  all_goals
    first
      | (exfalso
         simp only [Prod.mk.injEq] at h
         exact ActRes.noConfusion h.1)
      | (exfalso
         simp only [Prod.mk.injEq, ActRes.ok.injEq] at h
         rw [← h.1] at hp
         simp at hp
         done)
      | (refine ⟨not_ne_iff.mp (by assumption), ?_⟩
         intro i hi
         have hh := handleEmptyHand_ok _ pid pl t h hp i hi
         simpa [setTeam_pozzetti, setHand_pozzetti] using hh)

/-- An extendMeld success that reports a pozzetto pickup happened in the
MELD phase and put the pile of the reported slot into the hand, emptying
it. -/
theorem extendMeld_ok_refill (s : GameState) (pid : Nat) (meldId : Nat)
    (cardIds : List Card) (pl : OkPayload) (t : GameState)
    (h : extendMeld s pid meldId cardIds = (.ok pl, t)) (hp : pl.tookPozzetto = true) :
    s.currentPhase = .meld ∧
    ∀ i, pl.pozzettoIndex = some i →
      getHand t pid = s.pozzetti.getD i [] ∧ t.pozzetti.getD i [] = [] := by
  unfold extendMeld at h
  dsimp only at h
  repeat' split at h
  all_goals
    first
      | (exfalso
         simp only [Prod.mk.injEq] at h
         exact ActRes.noConfusion h.1)
      | (exfalso
         simp only [Prod.mk.injEq, ActRes.ok.injEq] at h
         rw [← h.1] at hp
         simp at hp
         done)
      | (refine ⟨not_ne_iff.mp (by assumption), ?_⟩
         intro i hi
         have hh := handleEmptyHand_ok _ pid pl t h hp i hi
         simpa [setTeam_pozzetti, setHand_pozzetti] using hh)

/-- The discard refill path increments the acting team pozzettoCount with
no check of an earlier claim. -/
theorem discard_refill_count (s : GameState) (pid : Nat) (cid : Card)
    (pl : OkPayload) (t : GameState) (cur : Player)
    (hcur : s.players.get? s.currentPlayerIndex = some cur)
    (h : discard s pid cid = (.ok pl, t)) (hp : pl.tookPozzetto = true) :
    (t.team cur.team).pozzettoCount = (s.team cur.team).pozzettoCount + 1 := by
  unfold discard at h
  rw [hcur] at h
  dsimp only at h
  repeat' split at h
  all_goals
    first
      | (exfalso
         simp only [Prod.mk.injEq] at h
         exact ActRes.noConfusion h.1)
      | (exfalso
         simp only [Prod.mk.injEq, ActRes.ok.injEq] at h
         rw [← h.1] at hp
         simp at hp
         done)
      | (simp only [Prod.mk.injEq, ActRes.ok.injEq] at h
         obtain ⟨hpl, ht⟩ := h
         subst ht
         simp [nextTurn_team, refillState_team_self, team_update_discardPile,
           setHand_team])

/-- C1 amended: a hand emptied by playMeld or extendMeld never ends the
round — the game-over flag is untouched by both actions; handleEmptyHand
instead leaves the state unchanged when the acting team already claimed a
pile or when no unclaimed non-empty pile exists, and otherwise replaces
the hand with the first available pile, marks the team claim, increments
its claim count and empties the pile slot. -/
theorem playMeld_empty_hand_semantics :
    (∀ (s : GameState) (pid : Nat) (cardIds : List Card),
      ((playMeld s pid cardIds).2).isGameOver = s.isGameOver) ∧
    (∀ (s : GameState) (pid : Nat) (meldId : Nat) (cardIds : List Card),
      ((extendMeld s pid meldId cardIds).2).isGameOver = s.isGameOver) ∧
    (∀ (s : GameState) (pid : Nat) (player : Player),
      (s.players.find? fun p => p.socketId = pid) = some player →
      (s.team player.team).tookPozzetto = true →
      handleEmptyHand s pid = (.ok { canGoOut := true }, s)) ∧
    (∀ (s : GameState) (pid : Nat) (player : Player),
      (s.players.find? fun p => p.socketId = pid) = some player →
      (s.team player.team).tookPozzetto = false →
      findAvailablePozzetto s 0 s.pozzetti = none →
      handleEmptyHand s pid = (.ok {}, s)) ∧
    (∀ (s : GameState) (pid : Nat) (player : Player) (i : Nat) (pile : List Card),
      (s.players.find? fun p => p.socketId = pid) = some player →
      (s.team player.team).tookPozzetto = false →
      findAvailablePozzetto s 0 s.pozzetti = some (i, pile) →
      getHand (handleEmptyHand s pid).2 pid = s.pozzetti.getD i [] ∧
      ((handleEmptyHand s pid).2.team player.team).tookPozzetto = true ∧
      ((handleEmptyHand s pid).2.team player.team).pozzettoCount =
        (s.team player.team).pozzettoCount + 1 ∧
      (handleEmptyHand s pid).2.pozzetti.getD i [] = []) := by
  refine ⟨?_, ?_, handleEmptyHand_took, handleEmptyHand_none, ?_⟩
  · intro s pid cardIds
    rcases hrun : playMeld s pid cardIds with ⟨r, t⟩
    exact (playMeld_preserves s pid cardIds r t hrun).2.2.2
  · intro s pid meldId cardIds
    rcases hrun : extendMeld s pid meldId cardIds with ⟨r, t⟩
    exact (extendMeld_preserves s pid meldId cardIds r t hrun).2.2.2
  · intro s pid player i pile hfind htook havail
    have hh := handleEmptyHand_refill s pid player i pile hfind htook havail
    exact ⟨hh.2.1, hh.2.2.1, hh.2.2.2.1, hh.2.2.2.2⟩

/-- C1 witness: the already-claimed branch evaluated at the round in which
both reserve piles are gone. -/
theorem playMeld_empty_hand_semantics_witness :
    handleEmptyHand bothPilesClaimedState 0 =
      (.ok { canGoOut := true }, bothPilesClaimedState) :=
  playMeld_empty_hand_semantics.2.2.1 bothPilesClaimedState 0 ⟨0, .A⟩ rfl rfl

/-- C2 amended: the melding path claims at most one pile per team — with
the claim flag set, handleEmptyHand changes nothing — and a claimed slot
is permanently emptied; the discard path, however, claims any available
pile without consulting the flag, incrementing the team count each time,
which is how a count of two is reached. -/
theorem pozzetto_claim_paths :
    (∀ (s : GameState) (pid : Nat) (player : Player),
      (s.players.find? fun p => p.socketId = pid) = some player →
      (s.team player.team).tookPozzetto = true →
      handleEmptyHand s pid = (.ok { canGoOut := true }, s)) ∧
    (∀ (s : GameState) (pid : Nat) (cid : Card) (pl : OkPayload)
        (t : GameState) (cur : Player),
      s.players.get? s.currentPlayerIndex = some cur →
      discard s pid cid = (.ok pl, t) →
      pl.tookPozzetto = true →
      (t.team cur.team).pozzettoCount = (s.team cur.team).pozzettoCount + 1 ∧
      ∀ i, pl.pozzettoIndex = some i → t.pozzetti.getD i [] = []) := by
  refine ⟨handleEmptyHand_took, ?_⟩
  intro s pid cid pl t cur hcur h hp
  refine ⟨discard_refill_count s pid cid pl t cur hcur h hp, ?_⟩
  intro i hi
  exact (((discard_ok s pid cid pl t h).2.2 hp).2 i hi).2

/-- C2 witness: the discard-path claim counted at the concrete round where
player 0 discards their last card with the second pile still available. -/
theorem pozzetto_claim_paths_witness :
    (((discard refillByDiscardState 0 (hC .r3 0)).2).team TeamId.A).pozzettoCount =
      ((refillByDiscardState.team TeamId.A).pozzettoCount + 1) :=
  (pozzetto_claim_paths.2 refillByDiscardState 0 (hC .r3 0)
    { tookPozzetto := true, pozzettoIndex := some 1 }
    (discard refillByDiscardState 0 (hC .r3 0)).2 ⟨0, .A⟩ rfl (by rfl) rfl).1

/-- C9 amended: the phase moves DRAW to MELD on a successful draw or
discard-pile take, is never moved by the melding actions, and returns to
DRAW only through nextTurn inside a successful non-closing discard, which
also advances the player index and the turn counter; a closing discard
freezes phase and index; no action ever moves a round out of phase
DRAW-or-MELD into DISCARD, and a round starts in DRAW. -/
theorem phase_cycle_semantics :
    (∀ (s : GameState) (pid : Nat),
      (drawFromPile s pid).1.isOk = true →
      ((drawFromPile s pid).2).currentPhase = .meld) ∧
    (∀ (s : GameState) (pid : Nat),
      (takeDiscardPile s pid).1.isOk = true →
      ((takeDiscardPile s pid).2).currentPhase = .meld) ∧
    (∀ (s : GameState) (pid : Nat) (cardIds : List Card),
      ((playMeld s pid cardIds).2).currentPhase = s.currentPhase) ∧
    (∀ (s : GameState) (pid : Nat) (meldId : Nat) (cardIds : List Card),
      ((extendMeld s pid meldId cardIds).2).currentPhase = s.currentPhase) ∧
    (∀ (s : GameState) (pid : Nat) (meldId : Nat) (w n : Card),
      ((replaceWildInMeld s pid meldId w n).2).currentPhase = s.currentPhase) ∧
    (∀ (s : GameState) (pid : Nat) (cid : Card) (pl : OkPayload) (t : GameState),
      discard s pid cid = (.ok pl, t) → pl.gameOver = false →
      t.currentPhase = .draw ∧
      t.currentPlayerIndex = (s.currentPlayerIndex + 1) % s.playerCount ∧
      t.turnCount = s.turnCount + 1) ∧
    (∀ (s : GameState) (pid : Nat) (cid : Card) (pl : OkPayload) (t : GameState),
      discard s pid cid = (.ok pl, t) → pl.gameOver = true →
      t.currentPhase = s.currentPhase ∧
      t.currentPlayerIndex = s.currentPlayerIndex) ∧
    (∀ (s : GameState) (a : Action),
      s.currentPhase ≠ .discard → ((stepAction s a).2).currentPhase ≠ .discard) ∧
    (∀ (playerCount : Nat) (players : List Player) (hands pozzetti : List (List Card))
        (drawPile discardPile : List Card),
      (mkGameState playerCount players hands pozzetti drawPile
        discardPile).currentPhase = .draw) := by
  refine ⟨?_, ?_, ?_, ?_, ?_, ?_, ?_, ?_, fun _ _ _ _ _ _ => rfl⟩
  · intro s pid hok
    rcases hrun : drawFromPile s pid with ⟨r, t⟩
    rw [hrun] at hok
    exact (drawFromPile_shape s pid r t hrun).2.2.2 hok
  · intro s pid hok
    rcases hrun : takeDiscardPile s pid with ⟨r, t⟩
    rw [hrun] at hok
    exact (takeDiscardPile_shape s pid r t hrun).2.2.2 hok
  · intro s pid cardIds
    rcases hrun : playMeld s pid cardIds with ⟨r, t⟩
    exact (playMeld_preserves s pid cardIds r t hrun).1
  · intro s pid meldId cardIds
    rcases hrun : extendMeld s pid meldId cardIds with ⟨r, t⟩
    exact (extendMeld_preserves s pid meldId cardIds r t hrun).1
  · intro s pid meldId w n
    rcases hrun : replaceWildInMeld s pid meldId w n with ⟨r, t⟩
    exact (replaceWildInMeld_preserves s pid meldId w n r t hrun).1
  · intro s pid cid pl t h hgo
    exact (discard_ok s pid cid pl t h).1 hgo
  · intro s pid cid pl t h hgo
    exact ⟨((discard_ok s pid cid pl t h).2.1 hgo).1,
      ((discard_ok s pid cid pl t h).2.1 hgo).2.1⟩
  · intro s a hs
    cases a with
    | draw pid =>
        rcases hrun : drawFromPile s pid with ⟨r, t⟩
        have hstep : (stepAction s (Action.draw pid)).2 = t := by
          show (drawFromPile s pid).2 = t
          rw [hrun]
        rw [hstep]
        rcases r with reason | payload
        · rw [(drawFromPile_fail s pid reason t hrun).1]
          exact hs
        · rw [(drawFromPile_shape s pid (.ok payload) t hrun).2.2.2 rfl]
          simp
    | take pid =>
        rcases hrun : takeDiscardPile s pid with ⟨r, t⟩
        have hstep : (stepAction s (Action.take pid)).2 = t := by
          show (takeDiscardPile s pid).2 = t
          rw [hrun]
        rw [hstep]
        rcases r with reason | payload
        · rw [(takeDiscardPile_fail s pid reason t hrun).1]
          exact hs
        · rw [(takeDiscardPile_shape s pid (.ok payload) t hrun).2.2.2 rfl]
          simp
    | play pid cardIds =>
        rcases hrun : playMeld s pid cardIds with ⟨r, t⟩
        have hstep : (stepAction s (Action.play pid cardIds)).2 = t := by
          show (playMeld s pid cardIds).2 = t
          rw [hrun]
        rw [hstep]
        rw [(playMeld_preserves s pid cardIds r t hrun).1]
        exact hs
    | extend pid meldId cardIds =>
        rcases hrun : extendMeld s pid meldId cardIds with ⟨r, t⟩
        have hstep : (stepAction s (Action.extend pid meldId cardIds)).2 = t := by
          show (extendMeld s pid meldId cardIds).2 = t
          rw [hrun]
        rw [hstep]
        rw [(extendMeld_preserves s pid meldId cardIds r t hrun).1]
        exact hs
    | replaceWild pid meldId w n =>
        rcases hrun : replaceWildInMeld s pid meldId w n with ⟨r, t⟩
        have hstep : (stepAction s (Action.replaceWild pid meldId w n)).2 = t := by
          show (replaceWildInMeld s pid meldId w n).2 = t
          rw [hrun]
        rw [hstep]
        rw [(replaceWildInMeld_preserves s pid meldId w n r t hrun).1]
        exact hs
    | disc pid cid =>
        rcases hrun : discard s pid cid with ⟨r, t⟩
        have hstep : (stepAction s (Action.disc pid cid)).2 = t := by
          show (discard s pid cid).2 = t
          rw [hrun]
        rw [hstep]
        rcases r with reason | payload
        · rw [(discard_fail s pid cid reason t hrun).1]
          exact hs
        · rcases hgo : payload.gameOver with _ | _
          · rw [((discard_ok s pid cid payload t hrun).1 hgo).1]
            simp
          · rw [((discard_ok s pid cid payload t hrun).2.1 hgo).1]
            exact hs

/-- C9 witness: a successful draw at the concrete round moves the phase to
MELD. -/
theorem phase_cycle_semantics_witness :
    ((drawFromPile oneTurnState 0).2).currentPhase = .meld :=
  phase_cycle_semantics.1 oneTurnState 0 rfl

/-- C10: a discard that empties the hand while a pile is available refills
the hand, empties the claimed slot, and nonetheless hands the turn on —
phase DRAW, next player, turn counter advanced, round not closed; a
playMeld or extendMeld that does the same keeps the same player acting in
the unchanged MELD phase. -/
theorem refill_turn_handling :
    (∀ (s : GameState) (pid : Nat) (cid : Card) (pl : OkPayload) (t : GameState),
      discard s pid cid = (.ok pl, t) → pl.tookPozzetto = true →
      pl.gameOver = false ∧
      t.currentPhase = .draw ∧
      t.currentPlayerIndex = (s.currentPlayerIndex + 1) % s.playerCount ∧
      t.turnCount = s.turnCount + 1 ∧
      (∀ i, pl.pozzettoIndex = some i →
        getHand t pid = s.pozzetti.getD i [] ∧ t.pozzetti.getD i [] = [])) ∧
    (∀ (s : GameState) (pid : Nat) (cardIds : List Card) (pl : OkPayload)
        (t : GameState),
      playMeld s pid cardIds = (.ok pl, t) → pl.tookPozzetto = true →
      s.currentPhase = .meld ∧
      t.currentPhase = .meld ∧
      t.currentPlayerIndex = s.currentPlayerIndex ∧
      t.turnCount = s.turnCount ∧
      (∀ i, pl.pozzettoIndex = some i →
        getHand t pid = s.pozzetti.getD i [] ∧ t.pozzetti.getD i [] = [])) ∧
    (∀ (s : GameState) (pid : Nat) (meldId : Nat) (cardIds : List Card)
        (pl : OkPayload) (t : GameState),
      extendMeld s pid meldId cardIds = (.ok pl, t) → pl.tookPozzetto = true →
      s.currentPhase = .meld ∧
      t.currentPhase = .meld ∧
      t.currentPlayerIndex = s.currentPlayerIndex ∧
      t.turnCount = s.turnCount ∧
      (∀ i, pl.pozzettoIndex = some i →
        getHand t pid = s.pozzetti.getD i [] ∧ t.pozzetti.getD i [] = [])) := by
  refine ⟨?_, ?_, ?_⟩
  · intro s pid cid pl t h hp
    obtain ⟨hgo, hrefill⟩ := (discard_ok s pid cid pl t h).2.2 hp
    obtain ⟨hph, hidx, htc⟩ := (discard_ok s pid cid pl t h).1 hgo
    exact ⟨hgo, hph, hidx, htc, hrefill⟩
  · intro s pid cardIds pl t h hp
    obtain ⟨hmeld, hrefill⟩ := playMeld_ok_refill s pid cardIds pl t h hp
    have hpres := playMeld_preserves s pid cardIds (.ok pl) t h
    exact ⟨hmeld, hpres.1.trans hmeld, hpres.2.1, hpres.2.2.1, hrefill⟩
  · intro s pid meldId cardIds pl t h hp
    obtain ⟨hmeld, hrefill⟩ := extendMeld_ok_refill s pid meldId cardIds pl t h hp
    have hpres := extendMeld_preserves s pid meldId cardIds (.ok pl) t h
    exact ⟨hmeld, hpres.1.trans hmeld, hpres.2.1, hpres.2.2.1, hrefill⟩

/-- C10 witness: the discard refill at the concrete round hands the turn
to player 1 in the DRAW phase. -/
theorem refill_turn_handling_witness :
    ((discard refillByDiscardState 0 (hC .r3 0)).2).currentPhase = .draw ∧
    ((discard refillByDiscardState 0 (hC .r3 0)).2).currentPlayerIndex =
      (refillByDiscardState.currentPlayerIndex + 1) % refillByDiscardState.playerCount :=
  let applied := refill_turn_handling.1 refillByDiscardState 0 (hC .r3 0)
    { tookPozzetto := true, pozzettoIndex := some 1 }
    (discard refillByDiscardState 0 (hC .r3 0)).2 (by rfl) rfl
  ⟨applied.2.1, applied.2.2.1⟩

end Buraco
